import Mathlib

/-!
# Lina: the llama.cpp session wrapper (`src/Lina/LlamaCPPWrapper.cpp`)

A shallow embedding of the wrapper's global session state and of its exported
functions.  The inference engine (llama.cpp) is not part of the wrapper: it is
a parameter, a record of total functions over an abstract engine state `E`, so
every statement below quantifies over every engine behaviour.  Every exported
function returns, next to its result, the chronological list of the engine
calls it made, of the null tests of the token callback it made and of the
fragments it handed to the callback.  The globals written without the mutex
(`g_token_callback`, `g_is_generating`) can change while a generation loop
runs: a streaming call takes the schedule of the unlocked calls that land
during its loop, and reads the callback anew at every delivery.
-/

namespace Lina

/-- A non-null pointer value (`llama_model*`, `llama_context*`, `llama_sampler*`,
`TokenCallback`).  A nullable pointer is an `Option Handle`, `none` being `nullptr`. -/
abbrev Handle := Nat

/-- A `llama_token`. -/
abbrev Token := Int

/-- The bytes of a `std::string` or of a `char` buffer. -/
abbrev Text := List Char

/-- The terminating byte of a C string. -/
def NUL : Char := Char.ofNat 0

/-- What the receiver of a `const char*` reads: the bytes before the first NUL
(`std::string::c_str()` handed to a callback or to `strdup`). -/
def c_str (t : Text) : Text := t.takeWhile (fun c => c != NUL)

/-- Wrap an integer into the range of a 32-bit `int`. -/
def i32 (x : Int) : Int := (x + 2147483648) % 4294967296 - 2147483648

/-- Conversion of an integer to `size_t` (unsigned 64-bit, wrapping). -/
def size_t (x : Int) : Int := x % 18446744073709551616

/-- The inference engine as the wrapper sees it: the llama.cpp entry points it
calls, each a function of the engine state.  A call that can change the engine
returns the new engine state. -/
structure Engine (E : Type) where
  ggml_backend_load_all : E → E
  /-- Arguments: path, `n_gpu_layers`. -/
  llama_model_load_from_file : E → Text → Int → Option Handle × E
  /-- Arguments: model, `n_ctx`, `n_threads`, `n_batch`. -/
  llama_init_from_model : E → Handle → Int → Int → Int → Option Handle × E
  llama_sampler_chain_init : E → Option Handle × E
  /-- The pair `llama_sampler_chain_add(chain, llama_sampler_init_greedy())`: the greedy
  stage is created and handed over to the chain, which owns it from then on. -/
  llama_sampler_chain_add_greedy : E → Option Handle → E
  llama_sampler_free : E → Handle → E
  llama_free : E → Handle → E
  llama_free_model : E → Handle → E
  /-- Arguments: vocab (of the model), text, capacity of the token buffer.  Result: the
  returned `int` and the tokens written to the buffer. -/
  llama_tokenize : E → Handle → Text → Nat → (Int × List Token) × E
  /-- Arguments: context, the tokens of the batch.  Result: the returned `int`. -/
  llama_decode : E → Handle → List Token → Int × E
  /-- Arguments: sampler, context. -/
  llama_sampler_sample : E → Handle → Handle → Token × E
  llama_vocab_is_eog : E → Handle → Token → Bool
  /-- The piece written to the 256-byte buffer, `none` when the returned length is negative. -/
  llama_token_to_piece : E → Handle → Token → Option Text

/-- One step of a run of the wrapper, as a trace records it: an engine call with its
arguments and its result; the null test `if (g_token_callback)` that guards a delivery, with
the pointer it read; a fragment delivered to the token callback; or a `cancel_generation()`
or `set_token_callback(callback)` that ran, without the mutex, while a generation loop was
running. -/
inductive Event where
  | backend_load_all
  | model_load (path : Text) (n_gpu_layers : Int) (r : Option Handle)
  | init_from_model (model : Handle) (n_ctx n_threads n_batch : Int) (r : Option Handle)
  | sampler_chain_init (r : Option Handle)
  | sampler_chain_add_greedy (chain : Option Handle)
  | sampler_free (h : Handle)
  | free_ctx (h : Handle)
  | free_model (h : Handle)
  | tokenize (text : Text) (capacity : Nat) (r : Int)
  | decode (ctx : Handle) (batch : List Token) (r : Int)
  | sample (sampler ctx : Handle) (tok : Token)
  | is_eog (tok : Token) (r : Bool)
  | token_to_piece (tok : Token) (r : Option Text)
  | callback_test (read : Option Handle)
  | callback (cb : Handle) (fragment : Text)
  | cancel
  | set_callback (callback : Option Handle)
  deriving DecidableEq, Repr

/-- The wrapper's globals together with the state of the engine behind them. -/
structure State (E : Type) where
  g_model : Option Handle
  g_ctx : Option Handle
  g_sampler : Option Handle
  g_is_generating : Bool
  g_should_stop : Bool
  g_token_callback : Option Handle
  engine : E
  deriving DecidableEq, Repr

/-- The session at process start: every global at its initialiser. -/
def State.empty {E : Type} (e : E) : State E :=
  { g_model := none, g_ctx := none, g_sampler := none, g_is_generating := false,
    g_should_stop := false, g_token_callback := none, engine := e }

variable {E : Type}

/-- The three guarded releases that open `load_model` and make up `unload_model`:
sampler, then context, then model, each only when its global is non-null. -/
def free_existing (eng : Engine E) (s : State E) : State E × List Event :=
  let (s1, ev1) :=
    match s.g_sampler with
    | some h => ({ s with engine := eng.llama_sampler_free s.engine h, g_sampler := none },
                 [Event.sampler_free h])
    | none => (s, [])
  let (s2, ev2) :=
    match s1.g_ctx with
    | some h => ({ s1 with engine := eng.llama_free s1.engine h, g_ctx := none },
                 [Event.free_ctx h])
    | none => (s1, [])
  let (s3, ev3) :=
    match s2.g_model with
    | some h => ({ s2 with engine := eng.llama_free_model s2.engine h, g_model := none },
                 [Event.free_model h])
    | none => (s2, [])
  (s3, ev1 ++ ev2 ++ ev3)

/-- The function `load_model(model_path, n_ctx, n_threads, n_gpu_layers)`. -/
def load_model (eng : Engine E) (s : State E) (model_path : Text)
    (n_ctx n_threads n_gpu_layers : Int) : Bool × State E × List Event :=
  let (s0, ev0) := free_existing eng s
  let e1 := eng.ggml_backend_load_all s0.engine
  let (m, e2) := eng.llama_model_load_from_file e1 model_path n_gpu_layers
  let ev1 := ev0 ++ [Event.backend_load_all, Event.model_load model_path n_gpu_layers m]
  match m with
  | none => (false, { s0 with g_model := none, engine := e2 }, ev1)
  | some mh =>
    let (c, e3) := eng.llama_init_from_model e2 mh n_ctx n_threads 512
    let ev2 := ev1 ++ [Event.init_from_model mh n_ctx n_threads 512 c]
    match c with
    | none =>
      (false, { s0 with g_model := none, g_ctx := none, engine := eng.llama_free_model e3 mh },
        ev2 ++ [Event.free_model mh])
    | some ch =>
      let (sm, e4) := eng.llama_sampler_chain_init e3
      let e5 := eng.llama_sampler_chain_add_greedy e4 sm
      (true, { s0 with g_model := some mh, g_ctx := some ch, g_sampler := sm, engine := e5 },
        ev2 ++ [Event.sampler_chain_init sm, Event.sampler_chain_add_greedy sm])

/-- The function `unload_model()`. -/
def unload_model (eng : Engine E) (s : State E) : State E × List Event :=
  free_existing eng s

/-- The function `is_model_loaded()`. -/
def is_model_loaded (s : State E) : Bool :=
  s.g_model.isSome && s.g_ctx.isSome && s.g_sampler.isSome

/-- The function `set_token_callback(callback)`. -/
def set_token_callback (s : State E) (callback : Option Handle) : State E :=
  { s with g_token_callback := callback }

/-- The function `is_generating()`. -/
def is_generating (s : State E) : Bool := s.g_is_generating

/-- The function `cancel_generation()`: it clears `g_is_generating`. -/
def cancel_generation (s : State E) : State E :=
  { s with g_is_generating := false }

/-- The literal `"Error: No model loaded"`. -/
def err_no_model : Text := "Error: No model loaded".toList

/-- The literal `"Error: Already generating"`. -/
def err_already_generating : Text := "Error: Already generating".toList

/-- The literal `"Error: Failed to tokenize prompt"`. -/
def err_tokenize : Text := "Error: Failed to tokenize prompt".toList

/-- The literal `"Error: Failed to process prompt"`. -/
def err_process_prompt : Text := "Error: Failed to process prompt".toList

/-- The literal `"Error: Failed to convert token"`. -/
def err_convert : Text := "Error: Failed to convert token".toList

/-- The literal `"\nError: Failed to decode token"`. -/
def err_decode : Text := "\nError: Failed to decode token".toList

/-- The call `g_token_callback(text)` behind the null test: the callback, when there is one,
receives the text as a C string. -/
def deliver (cb : Option Handle) (text : Text) : List Event :=
  match cb with
  | some f => [Event.callback f (c_str text)]
  | none => []

/-- The idiom `if (g_token_callback) { g_token_callback(text); }`: the global is read, and
the callback it holds, if any, is called.  The null test and the call are taken to read the
same pointer: a write of another thread landing between the two is not followed. -/
def emit (s : State E) (text : Text) : List Event :=
  Event.callback_test s.g_token_callback :: deliver s.g_token_callback text

/-- A call that does not take the mutex and writes a global: it can run while a generation
holds the mutex, made by another thread or by the token callback itself while it is being
called. -/
inductive Interference where
  | cancel
  | set_callback (callback : Option Handle)
  deriving DecidableEq, Repr

/-- The effect of such a call on the globals. -/
def Interference.apply (s : State E) : Interference → State E
  | Interference.cancel => cancel_generation s
  | Interference.set_callback cb => set_token_callback s cb

/-- The mark such a call leaves in the trace. -/
def Interference.mark : Interference → Event
  | Interference.cancel => Event.cancel
  | Interference.set_callback cb => Event.set_callback cb

/-- The globals after a run of such calls, in order. -/
def interfere (s : State E) (acts : List Interference) : State E :=
  acts.foldl Interference.apply s

/-- The marks of a run of such calls, in order. -/
def marks (acts : List Interference) : List Event :=
  acts.map Interference.mark

/-- What happens around one iteration of the streaming loop without the mutex: the calls that
land before the iteration reads `g_should_stop`, those that land before it reads
`g_token_callback` for its first delivery (the fragment, or the conversion error), and those
that land before it reads `g_token_callback` again for the decode error.  A callback that
replaces itself while it is called lands in the next of these, or right after the whole
call when no read follows. -/
structure Interleaving where
  before_stop_test : List Interference
  before_delivery : List Interference
  before_second_delivery : List Interference
  deriving DecidableEq, Repr

/-- An iteration nothing interferes with. -/
def Interleaving.quiet : Interleaving :=
  { before_stop_test := [], before_delivery := [], before_second_delivery := [] }

/-- The content of `std::vector<llama_token> prompt_tokens(n_prompt)` after the engine wrote
`written` into it: value-initialised to zero, never longer than `n_prompt`. -/
def fill_buffer (n_prompt : Nat) (written : List Token) : List Token :=
  (written ++ List.replicate n_prompt 0).take n_prompt

/-- The body of the streaming loop from the sampling call on (lines 160 to 195), with the
unlocked calls `il` landing around it.  Every delivery reads `g_token_callback` anew.  The
flag says whether the loop goes on to `n_pos++` (`true`) or leaves through `break`
(`false`). -/
def stream_body (eng : Engine E) (vocab ctx smpl : Handle) (il : Interleaving) (s : State E) :
    Bool × State E × List Event :=
  let (tok, e1) := eng.llama_sampler_sample s.engine smpl ctx
  let s1 := { s with engine := e1 }
  if eng.llama_vocab_is_eog e1 vocab tok then
    (false, s1, [Event.sample smpl ctx tok, Event.is_eog tok true])
  else
    match eng.llama_token_to_piece e1 vocab tok with
    | none =>
      let s2 := interfere s1 il.before_delivery
      (false, s2, [Event.sample smpl ctx tok, Event.is_eog tok false,
        Event.token_to_piece tok none] ++ marks il.before_delivery ++ emit s2 err_convert)
    | some piece =>
      let s2 := interfere s1 il.before_delivery
      let (r, e2) := eng.llama_decode e1 ctx [tok]
      let s3 := { s2 with engine := e2 }
      let evs := [Event.sample smpl ctx tok, Event.is_eog tok false,
        Event.token_to_piece tok (some piece)] ++ marks il.before_delivery ++ emit s2 piece ++
        [Event.decode ctx [tok] r]
      if r != 0 then
        let s4 := interfere s3 il.before_second_delivery
        (false, s4, evs ++ marks il.before_second_delivery ++ emit s4 err_decode)
      else (true, s3, evs)

/-- The loop `for (int n_pos = prompt_tokens.size(); n_pos < prompt_tokens.size() + max_tokens;
n_pos++)` of `generate_text_streaming`.  `bound` is the `size_t` sum on the right of the
comparison, to which `n_pos` is converted.  `sched` gives, iteration by iteration, the
unlocked calls (`cancel_generation()`, `set_token_callback(cb)`) that land while the loop
runs.  An increment of the counter past the largest `int`, undefined in C++, is taken to wrap
around.  The first argument is the number of iterations the embedding may unfold.  The
result is the state, `n_decode` and the events of the loop. -/
def stream_loop (eng : Engine E) (vocab ctx smpl : Handle) (bound : Int) :
    Nat → List Interleaving → Int → Int → State E → State E × Int × List Event
  | 0, _, _, n_decode, s => (s, n_decode, [])
  | fuel + 1, sched, n_pos, n_decode, s =>
    if size_t n_pos < bound then
      let il := sched.headD Interleaving.quiet
      let s0 := interfere s il.before_stop_test
      let ev0 := marks il.before_stop_test
      if s0.g_should_stop then (s0, n_decode, ev0)
      else
        match stream_body eng vocab ctx smpl il s0 with
        | (false, s1, evs) => (s1, n_decode, ev0 ++ evs)
        | (true, s1, evs) =>
          let (s2, n, rest) :=
            stream_loop eng vocab ctx smpl bound fuel sched.tail (i32 (n_pos + 1))
              (i32 (n_decode + 1)) s1
          (s2, n, ev0 ++ evs ++ rest)
    else (s, n_decode, [])

/-- How the opening shared by the two generate functions ends (lines 125 to 151 and 217
to 237): the constructor of `prompt_tokens` throws `std::length_error` on a negative
`n_prompt`; or the second tokenizer call answers a negative number; or the decode of the
prompt answers non-zero; or the prompt is processed and generation can start. -/
inductive Prefill (E : Type) where
  | threw
  | tokenize_failed (s : State E) (evs : List Event)
  | decode_failed (s : State E) (evs : List Event)
  | ready (s : State E) (evs : List Event) (n_prompt : Int)

/-- Tokenization of the prompt and prefill, as both generate functions do them: the tokenizer
is asked for the size with an empty buffer, `n_prompt` is the negated answer, the tokenizer
fills a buffer of that size, and the buffer is decoded as one batch. -/
def prefill (eng : Engine E) (model ctx : Handle) (s1 : State E) (prompt : Text) : Prefill E :=
  let ((r1, _), e1) := eng.llama_tokenize s1.engine model prompt 0
  let n_prompt := i32 (-r1)
  if n_prompt < 0 then Prefill.threw
  else
    let ((r2, written), e2) := eng.llama_tokenize e1 model prompt n_prompt.toNat
    let prompt_tokens := fill_buffer n_prompt.toNat written
    let ev2 := [Event.tokenize prompt 0 r1, Event.tokenize prompt n_prompt.toNat r2]
    if r2 < 0 then Prefill.tokenize_failed { s1 with engine := e2 } ev2
    else
      let (r3, e3) := eng.llama_decode e2 ctx prompt_tokens
      let ev3 := ev2 ++ [Event.decode ctx prompt_tokens r3]
      if r3 != 0 then Prefill.decode_failed { s1 with engine := e3 } ev3
      else Prefill.ready { s1 with engine := e3 } ev3 n_prompt

/-- The function `generate_text_streaming(prompt, max_tokens, temperature, top_p, top_k,
repeat_penalty)`; the four sampling parameters are never read and are left out.  `none`
stands for the call that does not return.  An `int` counter compared as `size_t` takes at
most 2^32 values before the comparison fails, so 2^32 iterations are all the loop can
make (`stream_loop_fuel`).  `sched` is what lands, without the mutex, while the loop runs.
A path that leaves before the loop makes one delivery at most, and an unlocked call landing
on such a path has the effect of the same call made just before or just after the whole
call, so these paths take no schedule. -/
def generate_text_streaming (eng : Engine E) (sched : List Interleaving) (s : State E)
    (prompt : Text) (max_tokens : Int) : Option (State E × List Event) :=
  match s.g_model, s.g_ctx, s.g_sampler with
  | some model, some ctx, some smpl =>
    if s.g_is_generating then some (s, emit s err_already_generating)
    else
      match prefill eng model ctx { s with g_is_generating := true, g_should_stop := false }
          prompt with
      | Prefill.threw => none
      | Prefill.tokenize_failed s2 evs =>
        some ({ s2 with g_is_generating := false }, evs ++ emit s2 err_tokenize)
      | Prefill.decode_failed s3 evs =>
        some ({ s3 with g_is_generating := false }, evs ++ emit s3 err_process_prompt)
      | Prefill.ready s3 evs n_prompt =>
        let (s4, _, loop) :=
          stream_loop eng model ctx smpl (size_t (n_prompt + max_tokens)) 4294967296
            sched n_prompt 0 s3
        some ({ s4 with g_is_generating := false }, evs ++ loop)
  | _, _, _ => some (s, emit s err_no_model)

/-- The body of the loop of `generate_text` from the sampling call on (lines 246 to 269):
whether the loop goes on, the new state, the events and the bytes appended to `response`. -/
def text_body (eng : Engine E) (vocab ctx smpl : Handle) (s : State E) :
    Bool × State E × List Event × Text :=
  let (tok, e1) := eng.llama_sampler_sample s.engine smpl ctx
  let s1 := { s with engine := e1 }
  if eng.llama_vocab_is_eog e1 vocab tok then
    (false, s1, [Event.sample smpl ctx tok, Event.is_eog tok true], [])
  else
    match eng.llama_token_to_piece e1 vocab tok with
    | none =>
      (false, s1, [Event.sample smpl ctx tok, Event.is_eog tok false,
        Event.token_to_piece tok none], [])
    | some piece =>
      let (r, e2) := eng.llama_decode e1 ctx [tok]
      let s2 := { s1 with engine := e2 }
      let evs := [Event.sample smpl ctx tok, Event.is_eog tok false,
        Event.token_to_piece tok (some piece), Event.decode ctx [tok] r]
      (r == 0, s2, evs, piece)

/-- The loop `for (int i = 0; i < max_tokens; ++i)` of `generate_text`: the state, the
events and what the loop appended to `response`.  The first argument is the number of
iterations the embedding may unfold. -/
def text_loop (eng : Engine E) (vocab ctx smpl : Handle) (max_tokens : Int) :
    Nat → Int → State E → State E × List Event × Text
  | 0, _, s => (s, [], [])
  | fuel + 1, i, s =>
    if i < max_tokens then
      if s.g_should_stop then (s, [], [])
      else
        match text_body eng vocab ctx smpl s with
        | (false, s1, evs, piece) => (s1, evs, piece)
        | (true, s1, evs, piece) =>
          let (s2, rest, response) :=
            text_loop eng vocab ctx smpl max_tokens fuel (i + 1) s1
          (s2, evs ++ rest, piece ++ response)
    else (s, [], [])

/-- The function `generate_text(prompt, max_tokens, temperature, top_p, top_k,
repeat_penalty)`, the sampling parameters left out as above.  The text is what the caller
reads from the returned `strdup` copy; `none` is the call that does not return.  The
counter `i` makes at most `max_tokens` steps (`text_loop_fuel`).  The function never reads
`g_token_callback`, and it clears `g_is_generating` when it returns: an unlocked call
landing while it runs has the effect of the same call made right after it, so the function
takes no schedule. -/
def generate_text (eng : Engine E) (s : State E) (prompt : Text) (max_tokens : Int) :
    Option (Text × State E × List Event) :=
  match s.g_model, s.g_ctx, s.g_sampler with
  | some model, some ctx, some smpl =>
    if s.g_is_generating then some (c_str err_already_generating, s, [])
    else
      match prefill eng model ctx { s with g_is_generating := true, g_should_stop := false }
          prompt with
      | Prefill.threw => none
      | Prefill.tokenize_failed s2 evs =>
        some (c_str err_tokenize, { s2 with g_is_generating := false }, evs)
      | Prefill.decode_failed s3 evs =>
        some (c_str err_process_prompt, { s3 with g_is_generating := false }, evs)
      | Prefill.ready s3 evs _ =>
        let (s4, loop, response) :=
          text_loop eng model ctx smpl max_tokens max_tokens.toNat 0 s3
        some (c_str response, { s4 with g_is_generating := false }, evs ++ loop)
  | _, _, _ => some (c_str err_no_model, s, [])

/-! ## Call sequences -/

/-- A call of the lifecycle interface. -/
inductive Lifecycle where
  | load (model_path : Text) (n_ctx n_threads n_gpu_layers : Int)
  | unload
  deriving DecidableEq, Repr

/-- What a lifecycle call gave back to its caller: the `bool` of `load_model`, nothing for
`unload_model`. -/
inductive Outcome where
  | loaded (ok : Bool)
  | unloaded
  deriving DecidableEq, Repr

/-- A sequence of `load_model` and `unload_model` calls run one after the other: the final
state, all events in order, and the outcome of every call. -/
def run_lifecycle (eng : Engine E) : State E → List Lifecycle → State E × List Event × List Outcome
  | s, [] => (s, [], [])
  | s, Lifecycle.load p a b c :: rest =>
    let (ok, s1, ev) := load_model eng s p a b c
    let (s2, evs, outs) := run_lifecycle eng s1 rest
    (s2, ev ++ evs, Outcome.loaded ok :: outs)
  | s, Lifecycle.unload :: rest =>
    let (s1, ev) := unload_model eng s
    let (s2, evs, outs) := run_lifecycle eng s1 rest
    (s2, ev ++ evs, Outcome.unloaded :: outs)

/-- The spec's reading of a call history: "the most recent load succeeded and no unload has
occurred since".  Scanning the history, a load sets the answer to what it returned and an
unload sets it to false. -/
def loaded_per_spec (outs : List Outcome) : Bool :=
  outs.foldl (fun _ o => match o with
    | Outcome.loaded ok => ok
    | Outcome.unloaded => false) false

/-- The engine never answers `llama_sampler_chain_init` with a null pointer. -/
def SamplerNeverNull (eng : Engine E) : Prop :=
  ∀ e, (eng.llama_sampler_chain_init e).1.isSome = true

/-- A call of the exported interface.  A streaming call carries the schedule of the
unlocked calls that land while its loop runs. -/
inductive Call where
  | load (model_path : Text) (n_ctx n_threads n_gpu_layers : Int)
  | unload
  | set_callback (callback : Option Handle)
  | stream (sched : List Interleaving) (prompt : Text) (max_tokens : Int)
  | text (prompt : Text) (max_tokens : Int)
  | cancel
  deriving DecidableEq, Repr

/-- The state a call leaves behind when it returns, `none` when it does not return. -/
def Call.exec (eng : Engine E) (s : State E) : Call → Option (State E)
  | Call.load p a b c => some (load_model eng s p a b c).2.1
  | Call.unload => some (unload_model eng s).1
  | Call.set_callback cb => some (set_token_callback s cb)
  | Call.stream sched prompt max_tokens =>
    (generate_text_streaming eng sched s prompt max_tokens).map (fun r => r.1)
  | Call.text prompt max_tokens =>
    (generate_text eng s prompt max_tokens).map (fun r => r.2.1)
  | Call.cancel => some (cancel_generation s)

/-- The states the session can be in after a sequence of completed calls, from the empty
session over the engine state `e0`. -/
inductive Reachable (eng : Engine E) (e0 : E) : State E → Prop where
  | start : Reachable eng e0 (State.empty e0)
  | call {s s1 : State E} (c : Call) : Reachable eng e0 s → c.exec eng s = some s1 →
      Reachable eng e0 s1

/-- The three handles are all null or all non-null. -/
def handles_consistent (s : State E) : Bool :=
  (s.g_model.isNone && s.g_ctx.isNone && s.g_sampler.isNone) ||
  (s.g_model.isSome && s.g_ctx.isSome && s.g_sampler.isSome)

/-! ## Accounting of engine handles -/

/-- The handles the engine has created and not yet been asked to release. -/
structure Ledger where
  models : List Handle
  contexts : List Handle
  samplers : List Handle
  deriving DecidableEq, Repr

/-- The ledger after one more event.  A successful create adds its handle; a release removes
the handle, and is refused (`none`) when the handle is not live: released before, or never
created. -/
def Ledger.record (l : Ledger) : Event → Option Ledger
  | Event.model_load _ _ (some h) => some { l with models := h :: l.models }
  | Event.init_from_model _ _ _ _ (some h) => some { l with contexts := h :: l.contexts }
  | Event.sampler_chain_init (some h) => some { l with samplers := h :: l.samplers }
  | Event.free_model h =>
    if h ∈ l.models then some { l with models := l.models.erase h } else none
  | Event.free_ctx h =>
    if h ∈ l.contexts then some { l with contexts := l.contexts.erase h } else none
  | Event.sampler_free h =>
    if h ∈ l.samplers then some { l with samplers := l.samplers.erase h } else none
  | _ => some l

/-- The ledger after a whole trace, `none` as soon as one release is refused. -/
def Ledger.replay : Ledger → List Event → Option Ledger
  | l, [] => some l
  | l, e :: es => (l.record e).bind (fun l1 => l1.replay es)

/-- The handles the session holds in its three globals. -/
def held (s : State E) : Ledger :=
  { models := s.g_model.toList, contexts := s.g_ctx.toList, samplers := s.g_sampler.toList }

/-- The successful engine create calls of a trace, per kind of handle. -/
def created_models (evs : List Event) : List Handle :=
  evs.filterMap (fun e => match e with
    | Event.model_load _ _ r => r
    | _ => none)

def created_contexts (evs : List Event) : List Handle :=
  evs.filterMap (fun e => match e with
    | Event.init_from_model _ _ _ _ r => r
    | _ => none)

def created_samplers (evs : List Event) : List Handle :=
  evs.filterMap (fun e => match e with
    | Event.sampler_chain_init r => r
    | _ => none)

/-- The engine release calls of a trace, per kind of handle. -/
def released_models (evs : List Event) : List Handle :=
  evs.filterMap (fun e => match e with
    | Event.free_model h => some h
    | _ => none)

def released_contexts (evs : List Event) : List Handle :=
  evs.filterMap (fun e => match e with
    | Event.free_ctx h => some h
    | _ => none)

def released_samplers (evs : List Event) : List Handle :=
  evs.filterMap (fun e => match e with
    | Event.sampler_free h => some h
    | _ => none)

/-! ## The shape of a generation loop trace -/

/-- A stretch of trace made of marks of unlocked calls only. -/
def AllMarks (ms : List Event) : Prop :=
  ∀ e ∈ ms, e = Event.cancel ∨ ∃ cb, e = Event.set_callback cb

/-- The traces the streaming loop can leave, for a sampler and a context, when every null
test of the callback reads a pointer satisfying `ok`.  Marks of unlocked calls come first;
then the loop ends (bound reached or stop flag seen), or an iteration runs: it samples an
end-of-generation token; or a token whose conversion fails, which is reported; or a token
that is converted and delivered and whose decode fails, which is reported; or a token that
is converted, delivered and decoded, after which the loop goes on. -/
inductive LoopTrace (ok : Option Handle → Prop) (smpl ctx : Handle) : List Event → Prop where
  | done : LoopTrace ok smpl ctx []
  | marked (ms : List Event) {rest : List Event} : AllMarks ms → LoopTrace ok smpl ctx rest →
      LoopTrace ok smpl ctx (ms ++ rest)
  | eog (tok : Token) :
      LoopTrace ok smpl ctx [Event.sample smpl ctx tok, Event.is_eog tok true]
  | convert_failed (tok : Token) (m1 : List Event) (r : Option Handle) : AllMarks m1 → ok r →
      LoopTrace ok smpl ctx ([Event.sample smpl ctx tok, Event.is_eog tok false,
        Event.token_to_piece tok none] ++ m1 ++
        Event.callback_test r :: deliver r err_convert)
  | decode_failed (tok : Token) (piece : Text) (m1 : List Event) (r1 : Option Handle)
      (dr : Int) (m2 : List Event) (r2 : Option Handle) :
      AllMarks m1 → ok r1 → dr ≠ 0 → AllMarks m2 → ok r2 →
      LoopTrace ok smpl ctx ([Event.sample smpl ctx tok, Event.is_eog tok false,
        Event.token_to_piece tok (some piece)] ++ m1 ++
        Event.callback_test r1 :: deliver r1 piece ++
        Event.decode ctx [tok] dr :: (m2 ++ Event.callback_test r2 :: deliver r2 err_decode))
  | step (tok : Token) (piece : Text) (m1 : List Event) (r1 : Option Handle)
      {rest : List Event} : AllMarks m1 → ok r1 → LoopTrace ok smpl ctx rest →
      LoopTrace ok smpl ctx ([Event.sample smpl ctx tok, Event.is_eog tok false,
        Event.token_to_piece tok (some piece)] ++ m1 ++
        Event.callback_test r1 :: deliver r1 piece ++
        Event.decode ctx [tok] 0 :: rest)

/-- The fragments a trace delivers to the token callback, in order. -/
def fragments (evs : List Event) : List Text :=
  evs.filterMap (fun e => match e with
    | Event.callback _ f => some f
    | _ => none)

/-- The tokens the sampler returned, in order. -/
def sampled (evs : List Event) : List Token :=
  evs.filterMap (fun e => match e with
    | Event.sample _ _ t => some t
    | _ => none)

/-- The end-of-generation tests of a trace: the token tested and the engine's answer. -/
def eog_tests (evs : List Event) : List (Token × Bool) :=
  evs.filterMap (fun e => match e with
    | Event.is_eog t r => some (t, r)
    | _ => none)

/-- The token conversions of a trace: the token and the piece the engine returned for it,
`none` for a failed conversion. -/
def conversions (evs : List Event) : List (Token × Option Text) :=
  evs.filterMap (fun e => match e with
    | Event.token_to_piece t r => some (t, r)
    | _ => none)

/-- Whether some decode call of the trace answered non-zero. -/
def decode_failed (evs : List Event) : Bool :=
  evs.any (fun e => match e with
    | Event.decode _ _ r => r != 0
    | _ => false)

/-- The deliveries of a trace, in order: the callback called and the fragment it received. -/
def deliveries (evs : List Event) : List (Handle × Text) :=
  evs.filterMap (fun e => match e with
    | Event.callback f text => some (f, text)
    | _ => none)

/-- The pointers the null tests `if (g_token_callback)` of a trace read, in order. -/
def guard_tests (evs : List Event) : List (Option Handle) :=
  evs.filterMap (fun e => match e with
    | Event.callback_test r => some r
    | _ => none)

/-- Every pointer an unlocked call of the iteration registers satisfies `ok`. -/
def Interleaving.SetsOk (ok : Option Handle → Prop) (il : Interleaving) : Prop :=
  ∀ cb, Interference.set_callback cb ∈
    il.before_stop_test ++ il.before_delivery ++ il.before_second_delivery → ok cb

/-- The unlocked calls of an iteration without the `cancel_generation()` calls. -/
def Interleaving.strip (il : Interleaving) : Interleaving :=
  { before_stop_test := il.before_stop_test.filter (fun a => a != Interference.cancel),
    before_delivery := il.before_delivery.filter (fun a => a != Interference.cancel),
    before_second_delivery :=
      il.before_second_delivery.filter (fun a => a != Interference.cancel) }

/-- The same unlocked calls without the `cancel_generation()` calls. -/
def strip_cancels (sched : List Interleaving) : List Interleaving :=
  sched.map Interleaving.strip

/-- Two session states that differ at most in the flag `g_is_generating`. -/
def SameButFlag (s t : State E) : Prop :=
  s.g_model = t.g_model ∧ s.g_ctx = t.g_ctx ∧ s.g_sampler = t.g_sampler ∧
  s.g_should_stop = t.g_should_stop ∧ s.g_token_callback = t.g_token_callback ∧
  s.engine = t.engine

/-- A delivery of `text` to the callback `f` made by the streaming loop sits in its place,
`pre` being the trace before it and `post` the trace after it, when one of these holds.
It is the fragment of a sampled token: right before it come the sampling call of a token,
its end-of-generation test, its conversion to `piece`, the marks of unlocked calls and the
null test that read `f`; `text` is `piece` as a C string; and right after it comes the
single-token decode of that same token.  Or it reports a failed conversion: right before it
come the sampling call, the test, the failed conversion, marks and the null test; nothing
follows.  Or it reports a failed decode: right before it come the failed single-token
decode, marks and the null test; nothing follows. -/
def InPlace (smpl ctx : Handle) (pre : List Event) (f : Handle) (text : Text)
    (post : List Event) : Prop :=
  (∃ pre1 tok piece ms dr post1, AllMarks ms ∧
    pre = pre1 ++ (Event.sample smpl ctx tok :: Event.is_eog tok false ::
      Event.token_to_piece tok (some piece) :: (ms ++ [Event.callback_test (some f)])) ∧
    text = c_str piece ∧ post = Event.decode ctx [tok] dr :: post1) ∨
  (∃ pre1 tok ms, AllMarks ms ∧
    pre = pre1 ++ (Event.sample smpl ctx tok :: Event.is_eog tok false ::
      Event.token_to_piece tok none :: (ms ++ [Event.callback_test (some f)])) ∧
    text = err_convert ∧ post = []) ∨
  (∃ pre1 tok dr ms, dr ≠ 0 ∧ AllMarks ms ∧
    pre = pre1 ++ (Event.decode ctx [tok] dr :: (ms ++ [Event.callback_test (some f)])) ∧
    text = err_decode ∧ post = [])

/-- The engine calls of a trace: everything but the null tests of the callback and the
deliveries to it. -/
def engine_calls (evs : List Event) : List Event :=
  evs.filter (fun e => match e with
    | Event.callback _ _ => false
    | Event.callback_test _ => false
    | _ => true)

/-- A trace without the marks of the concurrent `cancel_generation()` calls. -/
def without_cancels (evs : List Event) : List Event :=
  evs.filter (fun e => match e with
    | Event.cancel => false
    | _ => true)

/-- The values of a 32-bit `int`. -/
def InRange32 (n : Int) : Prop := -2147483648 ≤ n ∧ n < 2147483648

/-! ## Concrete engines -/

/-- An engine whose state counts the sampling calls made so far.  Every create succeeds, a
prompt has three tokens, every decode succeeds, the k-th sampled token is `k`, tokens from 2
on end the generation, and every token reads `a`. -/
def mock : Engine Nat where
  ggml_backend_load_all := fun e => e
  llama_model_load_from_file := fun e _ _ => (some 1, e)
  llama_init_from_model := fun e _ _ _ _ => (some 2, e)
  llama_sampler_chain_init := fun e => (some 3, e)
  llama_sampler_chain_add_greedy := fun e _ => e
  llama_sampler_free := fun e _ => e
  llama_free := fun e _ => e
  llama_free_model := fun e _ => e
  llama_tokenize := fun e _ _ cap => (if cap = 0 then (-3, []) else (3, [11, 12, 13]), e)
  llama_decode := fun e _ _ => (0, e)
  llama_sampler_sample := fun e _ _ => (e, e + 1)
  llama_vocab_is_eog := fun _ _ t => decide (2 ≤ t)
  llama_token_to_piece := fun _ _ _ => some [Char.ofNat 97]

/-- The engine `mock`, except that sampler chain creation answers null. -/
def mock_null_sampler : Engine Nat :=
  { mock with llama_sampler_chain_init := fun e => (none, e) }

/-- The engine `mock`, except that the decode of a single-token batch fails. -/
def mock_decode_fails : Engine Nat :=
  { mock with llama_decode := fun e _ batch => (if batch.length = 1 then 1 else 0, e) }

/-- The session after `set_token_callback(cb)` with callback 9 and a successful
`load_model` on `mock`. -/
def mock_loaded : State Nat :=
  (load_model mock (set_token_callback (State.empty 0) (some 9)) [] 2048 4 0).2.1

/-- The events of the opening of a generate call on `mock_loaded`: the two tokenizer calls
and the decode of the three prompt tokens. -/
def mock_opening : List Event :=
  [Event.tokenize [] 0 (-3), Event.tokenize [] 3 3, Event.decode 2 [11, 12, 13] 0]

/-- The events of one completed loop step on `mock_loaded`, for the sampled token `t`. -/
def mock_step (t : Token) : List Event :=
  [Event.sample 3 2 t, Event.is_eog t false, Event.token_to_piece t (some [Char.ofNat 97]),
    Event.callback_test (some 9), Event.callback 9 [Char.ofNat 97], Event.decode 2 [t] 0]

/-- Another thread calls `cancel_generation()` before the first iteration tests the stop
flag. -/
def cancel_at_start : List Interleaving :=
  [{ before_stop_test := [Interference.cancel], before_delivery := [],
     before_second_delivery := [] }]

/-! ## Theorems -/

theorem c_str_err_no_model : c_str err_no_model = err_no_model := by decide

/-! ### Lifecycle: `load_model`, `unload_model`, `is_model_loaded` -/

theorem free_existing_events (eng : Engine E) (s : State E) :
    (free_existing eng s).2 =
      s.g_sampler.toList.map Event.sampler_free ++ s.g_ctx.toList.map Event.free_ctx ++
        s.g_model.toList.map Event.free_model := by
  obtain ⟨m, c, sm, g, st, cb, e⟩ := s
  cases m <;> cases c <;> cases sm <;> rfl

theorem free_existing_state (eng : Engine E) (s : State E) :
    (free_existing eng s).1.g_model = none ∧ (free_existing eng s).1.g_ctx = none ∧
    (free_existing eng s).1.g_sampler = none ∧
    (free_existing eng s).1.g_is_generating = s.g_is_generating ∧
    (free_existing eng s).1.g_should_stop = s.g_should_stop ∧
    (free_existing eng s).1.g_token_callback = s.g_token_callback := by
  obtain ⟨m, c, sm, g, st, cb, e⟩ := s
  cases m <;> cases c <;> cases sm <;> simp [free_existing]

theorem load_model_cases (eng : Engine E) (s : State E) (p : Text) (a b c : Int) :
    let r := load_model eng s p a b c
    (r.1 = false ∧ r.2.1.g_model = none ∧ r.2.1.g_ctx = none ∧ r.2.1.g_sampler = none) ∨
    (r.1 = true ∧ r.2.1.g_model.isSome = true ∧ r.2.1.g_ctx.isSome = true ∧
      ∃ e, r.2.1.g_sampler = (eng.llama_sampler_chain_init e).1) := by
  have hf := free_existing_state eng s
  simp only [load_model]
  split
  · left; simp_all
  · split
    · left; simp_all
    · right; exact ⟨rfl, rfl, rfl, _, rfl⟩

theorem load_model_loaded (eng : Engine E) (hs : SamplerNeverNull eng) (s : State E)
    (p : Text) (a b c : Int) :
    is_model_loaded (load_model eng s p a b c).2.1 = (load_model eng s p a b c).1 := by
  rcases load_model_cases eng s p a b c with ⟨h1, h2, h3, h4⟩ | ⟨h1, h2, h3, e, h4⟩
  · simp [is_model_loaded, h1, h2]
  · simp [is_model_loaded, h1, h2, h3, h4, hs e]

theorem unload_model_not_loaded (eng : Engine E) (s : State E) :
    is_model_loaded (unload_model eng s).1 = false := by
  simp [is_model_loaded, unload_model, (free_existing_state eng s).1]

theorem run_lifecycle_loaded (eng : Engine E) (hs : SamplerNeverNull eng)
    (calls : List Lifecycle) (s : State E) :
    is_model_loaded (run_lifecycle eng s calls).1 =
      (run_lifecycle eng s calls).2.2.foldl (fun _ o => match o with
        | Outcome.loaded ok => ok
        | Outcome.unloaded => false) (is_model_loaded s) := by
  induction calls generalizing s with
  | nil => rfl
  | cons c rest ih =>
    cases c with
    | load p a b c =>
      simp only [run_lifecycle, List.foldl_cons]
      rw [ih, load_model_loaded eng hs]
    | unload =>
      simp only [run_lifecycle, List.foldl_cons]
      rw [ih, unload_model_not_loaded]

/-- C1 (amended): for every engine whose sampler chain creation never answers null (model
load and context creation may each succeed or fail), after every sequence of `load_model`
and `unload_model` calls from the empty session `is_model_loaded()` is true exactly when the
most recent load returned true and no unload came after it; and `load_model` returns true
only when the model, context and sampler handles are all non-null. -/
theorem is_model_loaded_iff_last_load_ok (eng : Engine E) (hs : SamplerNeverNull eng) (e0 : E)
    (calls : List Lifecycle) :
    is_model_loaded (run_lifecycle eng (State.empty e0) calls).1 =
      loaded_per_spec (run_lifecycle eng (State.empty e0) calls).2.2 ∧
    ∀ (s : State E) (p : Text) (a b c : Int), (load_model eng s p a b c).1 = true →
      (load_model eng s p a b c).2.1.g_model.isSome = true ∧
      (load_model eng s p a b c).2.1.g_ctx.isSome = true ∧
      (load_model eng s p a b c).2.1.g_sampler.isSome = true := by
  refine ⟨run_lifecycle_loaded eng hs calls (State.empty e0), ?_⟩
  intro s p a b c h
  have hl := load_model_loaded eng hs s p a b c
  rw [h] at hl
  simpa [is_model_loaded, Bool.and_eq_true, and_assoc] using hl

theorem mock_sampler_never_null : SamplerNeverNull mock := fun _ => rfl

theorem is_model_loaded_iff_last_load_ok_witness :
    SamplerNeverNull mock ∧
    is_model_loaded (run_lifecycle mock (State.empty 0)
      [Lifecycle.load [] 2048 4 0, Lifecycle.unload, Lifecycle.load [] 2048 4 0]).1 = true :=
  ⟨mock_sampler_never_null,
    (is_model_loaded_iff_last_load_ok mock mock_sampler_never_null 0
      [Lifecycle.load [] 2048 4 0, Lifecycle.unload, Lifecycle.load [] 2048 4 0]).1.trans
      (by decide)⟩

/-- C1 as stated fails: when the engine answers `llama_sampler_chain_init` with null,
`load_model` on the empty session returns true, the history says "loaded", and
`is_model_loaded()` is false. -/
theorem load_true_with_null_sampler :
    (load_model mock_null_sampler (State.empty 0) [] 2048 4 0).1 = true ∧
    loaded_per_spec (run_lifecycle mock_null_sampler (State.empty 0)
      [Lifecycle.load [] 2048 4 0]).2.2 = true ∧
    is_model_loaded (run_lifecycle mock_null_sampler (State.empty 0)
      [Lifecycle.load [] 2048 4 0]).1 = false := by
  decide

/-! ### Accounting of handles -/

theorem replay_append (l : Ledger) (a b : List Event) :
    l.replay (a ++ b) = (l.replay a).bind (fun l1 => l1.replay b) := by
  induction a generalizing l with
  | nil => rfl
  | cons e es ih =>
    simp only [List.cons_append, Ledger.replay]
    cases l.record e with
    | none => rfl
    | some l1 => simpa using ih l1

theorem free_existing_replay (eng : Engine E) (s : State E) :
    (held s).replay (free_existing eng s).2 = some (held (free_existing eng s).1) := by
  obtain ⟨m, c, sm, g, st, cb, e⟩ := s
  cases m <;> cases c <;> cases sm <;>
    simp [free_existing, held, Ledger.replay, Ledger.record]

theorem load_model_replay (eng : Engine E) (s : State E) (p : Text) (a b c : Int) :
    (held s).replay (load_model eng s p a b c).2.2 =
      some (held (load_model eng s p a b c).2.1) := by
  have hf := free_existing_state eng s
  have hr := free_existing_replay eng s
  have hh : held (free_existing eng s).1 = ⟨[], [], []⟩ := by
    simp [held, hf.1, hf.2.1, hf.2.2.1]
  rw [hh] at hr
  simp only [load_model]
  split
  · rename_i h1
    simp only [List.append_assoc]
    rw [replay_append, hr]
    simp [Ledger.replay, Ledger.record, held, h1, hf.2.1, hf.2.2.1]
  · split
    · rename_i _ mh h1 _ h2
      simp only [List.append_assoc]
      rw [replay_append, hr]
      simp [Ledger.replay, Ledger.record, held, h1, h2, hf.2.2.1]
    · rename_i _ mh h1 _ ch h2
      simp only [List.append_assoc]
      rw [replay_append, hr]
      cases h3 : (eng.llama_sampler_chain_init
        (eng.llama_init_from_model (eng.llama_model_load_from_file
          (eng.ggml_backend_load_all (free_existing eng s).1.engine) p c).2 mh a b 512).2).1 <;>
        simp [Ledger.replay, Ledger.record, held, h1, h2, h3]

theorem run_lifecycle_replay (eng : Engine E) (calls : List Lifecycle) (s : State E) :
    (held s).replay (run_lifecycle eng s calls).2.1 =
      some (held (run_lifecycle eng s calls).1) := by
  induction calls generalizing s with
  | nil => rfl
  | cons c rest ih =>
    cases c with
    | load p a b c =>
      simp only [run_lifecycle, replay_append, load_model_replay, Option.some_bind, ih]
    | unload =>
      simp only [run_lifecycle, replay_append, unload_model, free_existing_replay,
        Option.some_bind, ih]

theorem run_lifecycle_append (eng : Engine E) (xs ys : List Lifecycle) (s : State E) :
    run_lifecycle eng s (xs ++ ys) =
      ((run_lifecycle eng (run_lifecycle eng s xs).1 ys).1,
        (run_lifecycle eng s xs).2.1 ++ (run_lifecycle eng (run_lifecycle eng s xs).1 ys).2.1,
        (run_lifecycle eng s xs).2.2 ++ (run_lifecycle eng (run_lifecycle eng s xs).1 ys).2.2) := by
  induction xs generalizing s with
  | nil => rfl
  | cons c rest ih =>
    cases c <;> simp [run_lifecycle, ih]

theorem replay_balance (evs : List Event) (l l1 : Ledger) (h : l.replay evs = some l1) :
    l.models.length + (created_models evs).length =
      (released_models evs).length + l1.models.length ∧
    l.contexts.length + (created_contexts evs).length =
      (released_contexts evs).length + l1.contexts.length ∧
    l.samplers.length + (created_samplers evs).length =
      (released_samplers evs).length + l1.samplers.length := by
  induction evs generalizing l with
  | nil =>
    simp only [Ledger.replay, Option.some.injEq] at h
    subst h
    simp [created_models, released_models, created_contexts, released_contexts,
      created_samplers, released_samplers]
  | cons e es ih =>
    simp only [Ledger.replay] at h
    cases hr : l.record e with
    | none => simp [hr] at h
    | some l2 =>
      rw [hr] at h
      have key := ih l2 (by simpa using h)
      have hlen : ∀ (h : Handle) (xs : List Handle), h ∈ xs →
          (xs.erase h).length + 1 = xs.length := by
        intro h xs hm
        have := List.length_erase_of_mem hm
        have := List.length_pos_of_mem hm
        omega
      cases e with
      | model_load p n r =>
        cases r <;> simp only [Ledger.record, Option.some.injEq] at hr <;> subst hr <;>
          simp only [created_models, released_models, created_contexts, released_contexts,
            created_samplers, released_samplers, List.filterMap_cons, List.length_cons]
            at key ⊢ <;> omega
      | init_from_model m a b c r =>
        cases r <;> simp only [Ledger.record, Option.some.injEq] at hr <;> subst hr <;>
          simp only [created_models, released_models, created_contexts, released_contexts,
            created_samplers, released_samplers, List.filterMap_cons, List.length_cons]
            at key ⊢ <;> omega
      | sampler_chain_init r =>
        cases r <;> simp only [Ledger.record, Option.some.injEq] at hr <;> subst hr <;>
          simp only [created_models, released_models, created_contexts, released_contexts,
            created_samplers, released_samplers, List.filterMap_cons, List.length_cons]
            at key ⊢ <;> omega
      | free_model x =>
        simp only [Ledger.record] at hr
        split at hr
        · rename_i hm
          have hx := hlen x _ hm
          clear hlen ih h
          simp only [Option.some.injEq] at hr
          subst hr
          simp only [created_models, released_models, created_contexts, released_contexts,
            created_samplers, released_samplers, List.filterMap_cons, List.length_cons]
            at key ⊢
          omega
        · simp at hr
      | free_ctx x =>
        simp only [Ledger.record] at hr
        split at hr
        · rename_i hm
          have hx := hlen x _ hm
          clear hlen ih h
          simp only [Option.some.injEq] at hr
          subst hr
          simp only [created_models, released_models, created_contexts, released_contexts,
            created_samplers, released_samplers, List.filterMap_cons, List.length_cons]
            at key ⊢
          omega
        · simp at hr
      | sampler_free x =>
        simp only [Ledger.record] at hr
        split at hr
        · rename_i hm
          have hx := hlen x _ hm
          clear hlen ih h
          simp only [Option.some.injEq] at hr
          subst hr
          simp only [created_models, released_models, created_contexts, released_contexts,
            created_samplers, released_samplers, List.filterMap_cons, List.length_cons]
            at key ⊢
          omega
        · simp at hr
      | _ =>
        have hl : some l2 = some l := hr.symm.trans rfl
        cases hl
        exact key


/-- C3: over every sequence of `load_model` and `unload_model` calls from the empty session
and every engine behaviour, (1) every engine release call releases a handle that is live at
that moment (created, not yet released), so no handle is released twice, and the handles
left live at the end are exactly those the session still holds, so every other created
handle has been released exactly once; (2) once an `unload_model` has returned, the release
calls are as many as the successful create calls, for models, contexts and samplers;
(3) a `load_model` on a loaded session releases the prior sampler, then the context, then
the model, and only then asks the engine to load the new model. -/
theorem no_handle_leak (eng : Engine E) (e0 : E) (calls : List Lifecycle) :
    (Ledger.replay ⟨[], [], []⟩ (run_lifecycle eng (State.empty e0) calls).2.1 =
      some (held (run_lifecycle eng (State.empty e0) calls).1)) ∧
    ((released_models (run_lifecycle eng (State.empty e0) (calls ++ [Lifecycle.unload])).2.1).length =
        (created_models (run_lifecycle eng (State.empty e0) (calls ++ [Lifecycle.unload])).2.1).length ∧
      (released_contexts (run_lifecycle eng (State.empty e0) (calls ++ [Lifecycle.unload])).2.1).length =
        (created_contexts (run_lifecycle eng (State.empty e0) (calls ++ [Lifecycle.unload])).2.1).length ∧
      (released_samplers (run_lifecycle eng (State.empty e0) (calls ++ [Lifecycle.unload])).2.1).length =
        (created_samplers (run_lifecycle eng (State.empty e0) (calls ++ [Lifecycle.unload])).2.1).length) ∧
    (∀ (s : State E) (m c sm : Handle) (p : Text) (a b n : Int),
      s.g_model = some m → s.g_ctx = some c → s.g_sampler = some sm →
      (load_model eng s p a b n).2.2.take 5 =
        [Event.sampler_free sm, Event.free_ctx c, Event.free_model m, Event.backend_load_all,
          Event.model_load p n (eng.llama_model_load_from_file (eng.ggml_backend_load_all
            (eng.llama_free_model (eng.llama_free (eng.llama_sampler_free s.engine sm) c) m))
            p n).1]) := by
  refine ⟨run_lifecycle_replay eng calls (State.empty e0), ?_, ?_⟩
  · have hr := run_lifecycle_replay eng (calls ++ [Lifecycle.unload]) (State.empty e0)
    have hs : held (run_lifecycle eng (State.empty e0) (calls ++ [Lifecycle.unload])).1 =
        ⟨[], [], []⟩ := by
      have hf := free_existing_state eng (run_lifecycle eng (State.empty e0) calls).1
      rw [run_lifecycle_append]
      simp [run_lifecycle, unload_model, held, hf.1, hf.2.1, hf.2.2.1]
    rw [hs] at hr
    have hb := replay_balance _ _ _ hr
    simp only [held, State.empty, Option.toList, List.length_nil, Nat.zero_add,
      Nat.add_zero] at hb
    exact ⟨hb.1.symm, hb.2.1.symm, hb.2.2.symm⟩
  · intro s m c sm p a b n hm hc hsm
    obtain ⟨m1, c1, sm1, g, st, cb, e⟩ := s
    simp only at hm hc hsm
    subst hm hc hsm
    simp only [load_model, free_existing]
    split <;> [skip; split] <;> simp_all

theorem no_handle_leak_witness :
    mock_loaded.g_model = some 1 ∧ mock_loaded.g_ctx = some 2 ∧ mock_loaded.g_sampler = some 3 ∧
    (load_model mock mock_loaded [] 2048 4 0).2.2.take 5 =
      [Event.sampler_free 3, Event.free_ctx 2, Event.free_model 1, Event.backend_load_all,
        Event.model_load [] 0 (some 1)] :=
  ⟨rfl, rfl, rfl, (no_handle_leak mock 0 []).2.2 mock_loaded 1 2 3 [] 2048 4 0 rfl rfl rfl⟩

/-! ### The generation loops -/

theorem interfere_fields (acts : List Interference) (s : State E) :
    (interfere s acts).g_model = s.g_model ∧ (interfere s acts).g_ctx = s.g_ctx ∧
    (interfere s acts).g_sampler = s.g_sampler ∧
    (interfere s acts).g_should_stop = s.g_should_stop ∧
    (interfere s acts).engine = s.engine := by
  induction acts generalizing s with
  | nil => exact ⟨rfl, rfl, rfl, rfl, rfl⟩
  | cons a rest ih =>
    obtain ⟨h1, h2, h3, h4, h5⟩ := ih (Interference.apply s a)
    simp only [interfere, List.foldl_cons] at h1 h2 h3 h4 h5 ⊢
    cases a <;> exact ⟨h1, h2, h3, h4, h5⟩

theorem interfere_callback (ok : Option Handle → Prop) (acts : List Interference)
    (s : State E) (h0 : ok s.g_token_callback)
    (h : ∀ cb, Interference.set_callback cb ∈ acts → ok cb) :
    ok (interfere s acts).g_token_callback := by
  induction acts generalizing s with
  | nil => exact h0
  | cons a rest ih =>
    simp only [interfere, List.foldl_cons]
    apply ih
    · cases a with
      | cancel => exact h0
      | set_callback cb => exact h cb (List.mem_cons_self _ _)
    · intro cb hcb
      exact h cb (List.mem_cons_of_mem _ hcb)

theorem marks_all (acts : List Interference) : AllMarks (marks acts) := by
  intro e he
  simp only [marks, List.mem_map] at he
  obtain ⟨a, _, rfl⟩ := he
  cases a with
  | cancel => exact Or.inl rfl
  | set_callback cb => exact Or.inr ⟨cb, rfl⟩

theorem stream_body_fields (eng : Engine E) (v c sm : Handle) (il : Interleaving)
    (s : State E) :
    (stream_body eng v c sm il s).2.1.g_model = s.g_model ∧
    (stream_body eng v c sm il s).2.1.g_ctx = s.g_ctx ∧
    (stream_body eng v c sm il s).2.1.g_sampler = s.g_sampler ∧
    (stream_body eng v c sm il s).2.1.g_should_stop = s.g_should_stop := by
  simp only [stream_body]
  split
  · exact ⟨rfl, rfl, rfl, rfl⟩
  · split
    · obtain ⟨h1, h2, h3, h4, _⟩ := interfere_fields il.before_delivery
        { s with engine := (eng.llama_sampler_sample s.engine sm c).2 }
      exact ⟨h1, h2, h3, h4⟩
    · split
      · obtain ⟨h1, h2, h3, h4, _⟩ := interfere_fields il.before_delivery
          { s with engine := (eng.llama_sampler_sample s.engine sm c).2 }
        obtain ⟨k1, k2, k3, k4, _⟩ := interfere_fields il.before_second_delivery
          { interfere { s with engine := (eng.llama_sampler_sample s.engine sm c).2 }
              il.before_delivery with
            engine := (eng.llama_decode (eng.llama_sampler_sample s.engine sm c).2 c
              [(eng.llama_sampler_sample s.engine sm c).1]).2 }
        exact ⟨k1.trans h1, k2.trans h2, k3.trans h3, k4.trans h4⟩
      · obtain ⟨h1, h2, h3, h4, _⟩ := interfere_fields il.before_delivery
          { s with engine := (eng.llama_sampler_sample s.engine sm c).2 }
        exact ⟨h1, h2, h3, h4⟩

theorem stream_body_trace (ok : Option Handle → Prop) (eng : Engine E) (v c sm : Handle)
    (il : Interleaving) (s : State E) (h0 : ok s.g_token_callback) (hil : il.SetsOk ok) :
    ok (stream_body eng v c sm il s).2.1.g_token_callback ∧
    ((stream_body eng v c sm il s).1 = false →
      LoopTrace ok sm c (stream_body eng v c sm il s).2.2) ∧
    ((stream_body eng v c sm il s).1 = true → ∃ tok piece m1 r1, AllMarks m1 ∧ ok r1 ∧
      (stream_body eng v c sm il s).2.2 = [Event.sample sm c tok, Event.is_eog tok false,
        Event.token_to_piece tok (some piece)] ++ m1 ++
        Event.callback_test r1 :: deliver r1 piece ++ [Event.decode c [tok] 0]) := by
  have hd : ∀ cb, Interference.set_callback cb ∈ il.before_delivery → ok cb := fun cb h =>
    hil cb (by simp [h])
  have hd2 : ∀ cb, Interference.set_callback cb ∈ il.before_second_delivery → ok cb :=
    fun cb h => hil cb (by simp [h])
  have k1 := interfere_callback ok il.before_delivery
    { s with engine := (eng.llama_sampler_sample s.engine sm c).2 } h0 hd
  simp only [stream_body]
  split
  · exact ⟨h0, fun _ => LoopTrace.eog _, fun h => by simp at h⟩
  · split
    · refine ⟨k1, fun _ => ?_, fun h => by simp at h⟩
      have := @LoopTrace.convert_failed ok sm c
        (eng.llama_sampler_sample s.engine sm c).1 (marks il.before_delivery) _
        (marks_all _) k1
      simpa [emit, List.append_assoc] using this
    · rename_i piece _
      split
      · rename_i hr
        have k2 := interfere_callback ok il.before_second_delivery
          { interfere { s with engine := (eng.llama_sampler_sample s.engine sm c).2 }
              il.before_delivery with
            engine := (eng.llama_decode (eng.llama_sampler_sample s.engine sm c).2 c
              [(eng.llama_sampler_sample s.engine sm c).1]).2 } k1 hd2
        refine ⟨k2, fun _ => ?_, fun h => by simp at h⟩
        have := @LoopTrace.decode_failed ok sm c
          (eng.llama_sampler_sample s.engine sm c).1 piece (marks il.before_delivery) _
          _ (marks il.before_second_delivery) _ (marks_all _) k1 (by simpa using hr)
          (marks_all _) k2
        simpa [emit, List.append_assoc] using this
      · rename_i hr
        refine ⟨k1, fun h => by simp at h, fun _ =>
          ⟨(eng.llama_sampler_sample s.engine sm c).1, piece, marks il.before_delivery, _,
            marks_all _, k1, ?_⟩⟩
        have hr0 : (eng.llama_decode (eng.llama_sampler_sample s.engine sm c).2 c
            [(eng.llama_sampler_sample s.engine sm c).1]).1 = 0 := by simpa using hr
        simp [emit, hr0]

theorem stream_loop_succ (eng : Engine E) (v c sm : Handle) (bound : Int) (k : Nat)
    (sched : List Interleaving) (n_pos nd : Int) (s : State E) :
    stream_loop eng v c sm bound (k + 1) sched n_pos nd s =
      if size_t n_pos < bound then
        if (interfere s (sched.headD Interleaving.quiet).before_stop_test).g_should_stop then
          (interfere s (sched.headD Interleaving.quiet).before_stop_test, nd,
            marks (sched.headD Interleaving.quiet).before_stop_test)
        else if (stream_body eng v c sm (sched.headD Interleaving.quiet)
            (interfere s (sched.headD Interleaving.quiet).before_stop_test)).1 then
          ((stream_loop eng v c sm bound k sched.tail (i32 (n_pos + 1)) (i32 (nd + 1))
              (stream_body eng v c sm (sched.headD Interleaving.quiet)
                (interfere s (sched.headD Interleaving.quiet).before_stop_test)).2.1).1,
            (stream_loop eng v c sm bound k sched.tail (i32 (n_pos + 1)) (i32 (nd + 1))
              (stream_body eng v c sm (sched.headD Interleaving.quiet)
                (interfere s (sched.headD Interleaving.quiet).before_stop_test)).2.1).2.1,
            marks (sched.headD Interleaving.quiet).before_stop_test ++
              (stream_body eng v c sm (sched.headD Interleaving.quiet)
                (interfere s (sched.headD Interleaving.quiet).before_stop_test)).2.2 ++
              (stream_loop eng v c sm bound k sched.tail (i32 (n_pos + 1)) (i32 (nd + 1))
                (stream_body eng v c sm (sched.headD Interleaving.quiet)
                  (interfere s (sched.headD Interleaving.quiet).before_stop_test)).2.1).2.2)
        else
          ((stream_body eng v c sm (sched.headD Interleaving.quiet)
              (interfere s (sched.headD Interleaving.quiet).before_stop_test)).2.1, nd,
            marks (sched.headD Interleaving.quiet).before_stop_test ++
              (stream_body eng v c sm (sched.headD Interleaving.quiet)
                (interfere s (sched.headD Interleaving.quiet).before_stop_test)).2.2)
      else (s, nd, []) := by
  simp only [stream_loop]
  split
  · split
    · rfl
    · rcases hb : stream_body eng v c sm (sched.headD Interleaving.quiet)
        (interfere s (sched.headD Interleaving.quiet).before_stop_test) with ⟨b, s1, evs⟩
      cases b <;> simp
  · rfl

theorem sets_ok_head (ok : Option Handle → Prop) (sched : List Interleaving)
    (h : ∀ il ∈ sched, il.SetsOk ok) :
    (sched.headD Interleaving.quiet).SetsOk ok ∧ ∀ il ∈ sched.tail, il.SetsOk ok := by
  cases sched with
  | nil =>
    refine ⟨?_, fun il h => by simp at h⟩
    intro cb hcb
    simp [Interleaving.quiet] at hcb
  | cons il rest =>
    exact ⟨h il (List.mem_cons_self _ _), fun x hx => h x (List.mem_cons_of_mem _ hx)⟩

theorem stream_loop_spec (ok : Option Handle → Prop) (eng : Engine E) (v c sm : Handle)
    (bound : Int) (fuel : Nat) :
    ∀ (sched : List Interleaving) (n_pos nd : Int) (s : State E),
      ok s.g_token_callback → (∀ il ∈ sched, il.SetsOk ok) →
      (stream_loop eng v c sm bound fuel sched n_pos nd s).1.g_model = s.g_model ∧
      (stream_loop eng v c sm bound fuel sched n_pos nd s).1.g_ctx = s.g_ctx ∧
      (stream_loop eng v c sm bound fuel sched n_pos nd s).1.g_sampler = s.g_sampler ∧
      (stream_loop eng v c sm bound fuel sched n_pos nd s).1.g_should_stop =
        s.g_should_stop ∧
      ok (stream_loop eng v c sm bound fuel sched n_pos nd s).1.g_token_callback ∧
      LoopTrace ok sm c (stream_loop eng v c sm bound fuel sched n_pos nd s).2.2 := by
  induction fuel with
  | zero => intro sched n_pos nd s h0 _; exact ⟨rfl, rfl, rfl, rfl, h0, LoopTrace.done⟩
  | succ k ih =>
    intro sched n_pos nd s h0 hs
    rw [stream_loop_succ]
    obtain ⟨hhead, htail⟩ := sets_ok_head ok sched hs
    generalize sched.headD Interleaving.quiet = il at hhead ⊢
    obtain ⟨g1, g2, g3, g4, _⟩ := interfere_fields il.before_stop_test s
    have g5 : ok (interfere s il.before_stop_test).g_token_callback :=
      interfere_callback ok _ s h0 (fun cb h => hhead cb (by simp [h]))
    have hm := marks_all il.before_stop_test
    generalize interfere s il.before_stop_test = s0 at g1 g2 g3 g4 g5 ⊢
    generalize marks il.before_stop_test = ev0 at hm ⊢
    obtain ⟨f1, f2, f3, f4⟩ := stream_body_fields eng v c sm il s0
    obtain ⟨t1, t2, t3⟩ := stream_body_trace ok eng v c sm il s0 g5 hhead
    split_ifs with hb hstop hcont
    · refine ⟨g1, g2, g3, g4, g5, ?_⟩
      simpa using LoopTrace.marked ev0 hm LoopTrace.done
    · obtain ⟨h1, h2, h3, h4, h5, h6⟩ :=
        ih sched.tail (i32 (n_pos + 1)) (i32 (nd + 1)) (stream_body eng v c sm il s0).2.1
          t1 htail
      obtain ⟨tok, piece, m1, r1, hm1, hr1, hev⟩ := t3 hcont
      refine ⟨h1.trans (f1.trans g1), h2.trans (f2.trans g2), h3.trans (f3.trans g3),
        h4.trans (f4.trans g4), h5, ?_⟩
      simp only [hev]
      have := LoopTrace.marked ev0 hm (LoopTrace.step tok piece m1 r1 hm1 hr1 h6)
      simpa [List.append_assoc] using this
    · exact ⟨f1.trans g1, f2.trans g2, f3.trans g3, f4.trans g4, t1,
        LoopTrace.marked ev0 hm (t2 (by simpa using hcont))⟩
    · exact ⟨rfl, rfl, rfl, rfl, h0, LoopTrace.done⟩

theorem text_body_state (eng : Engine E) (v c sm : Handle) (s : State E) :
    (text_body eng v c sm s).2.1 =
      { s with engine := (text_body eng v c sm s).2.1.engine } := by
  simp only [text_body]
  split
  · rfl
  · split <;> rfl

theorem text_loop_succ (eng : Engine E) (v c sm : Handle) (max_tokens : Int) (k : Nat)
    (i : Int) (s : State E) :
    text_loop eng v c sm max_tokens (k + 1) i s =
      if i < max_tokens then
        if s.g_should_stop then (s, [], [])
        else if (text_body eng v c sm s).1 then
          ((text_loop eng v c sm max_tokens k (i + 1) (text_body eng v c sm s).2.1).1,
            (text_body eng v c sm s).2.2.1 ++
              (text_loop eng v c sm max_tokens k (i + 1) (text_body eng v c sm s).2.1).2.1,
            (text_body eng v c sm s).2.2.2 ++
              (text_loop eng v c sm max_tokens k (i + 1) (text_body eng v c sm s).2.1).2.2)
        else
          ((text_body eng v c sm s).2.1, (text_body eng v c sm s).2.2.1,
            (text_body eng v c sm s).2.2.2)
      else (s, [], []) := by
  simp only [text_loop]
  split
  · split
    · rfl
    · rcases hb : text_body eng v c sm s with ⟨b, s1, evs, piece⟩
      cases b <;> simp
  · rfl

theorem text_loop_state (eng : Engine E) (v c sm : Handle) (max_tokens : Int) (fuel : Nat) :
    ∀ (i : Int) (s : State E),
      (text_loop eng v c sm max_tokens fuel i s).1.g_model = s.g_model ∧
      (text_loop eng v c sm max_tokens fuel i s).1.g_ctx = s.g_ctx ∧
      (text_loop eng v c sm max_tokens fuel i s).1.g_sampler = s.g_sampler ∧
      (text_loop eng v c sm max_tokens fuel i s).1.g_should_stop = s.g_should_stop ∧
      (text_loop eng v c sm max_tokens fuel i s).1.g_token_callback = s.g_token_callback := by
  induction fuel with
  | zero => intro i s; exact ⟨rfl, rfl, rfl, rfl, rfl⟩
  | succ k ih =>
    intro i s
    rw [text_loop_succ]
    have hst := text_body_state eng v c sm s
    split_ifs with hb hstop hcont
    · exact ⟨rfl, rfl, rfl, rfl, rfl⟩
    · obtain ⟨h1, h2, h3, h4, h5⟩ := ih (i + 1) (text_body eng v c sm s).2.1
      refine ⟨h1.trans ?_, h2.trans ?_, h3.trans ?_, h4.trans ?_, h5.trans ?_⟩ <;> rw [hst]
    · refine ⟨?_, ?_, ?_, ?_, ?_⟩ <;> simp only <;> rw [hst]
    · exact ⟨rfl, rfl, rfl, rfl, rfl⟩

theorem i32_range (x : Int) : InRange32 (i32 x) := by
  unfold InRange32 i32
  omega

theorem prefill_spec (eng : Engine E) (m c : Handle) (s1 : State E) (prompt : Text) :
    (prefill eng m c s1 prompt = Prefill.threw ↔
      i32 (-(eng.llama_tokenize s1.engine m prompt 0).1.1) < 0) ∧
    (∀ s2 evs, prefill eng m c s1 prompt = Prefill.tokenize_failed s2 evs →
      s2 = { s1 with engine := s2.engine } ∧
      ∃ r1 n r2, evs = [Event.tokenize prompt 0 r1, Event.tokenize prompt n r2]) ∧
    (∀ s3 evs, prefill eng m c s1 prompt = Prefill.decode_failed s3 evs →
      s3 = { s1 with engine := s3.engine } ∧
      ∃ r1 n r2 pt r3, r3 ≠ 0 ∧
        evs = [Event.tokenize prompt 0 r1, Event.tokenize prompt n r2, Event.decode c pt r3]) ∧
    (∀ s3 evs n_prompt, prefill eng m c s1 prompt = Prefill.ready s3 evs n_prompt →
      s3 = { s1 with engine := s3.engine } ∧ 0 ≤ n_prompt ∧ n_prompt < 2147483648 ∧
      n_prompt = i32 (-(eng.llama_tokenize s1.engine m prompt 0).1.1) ∧
      ∃ r1 n r2 pt,
        evs = [Event.tokenize prompt 0 r1, Event.tokenize prompt n r2, Event.decode c pt 0]) := by
  have hrange := i32_range (-(eng.llama_tokenize s1.engine m prompt 0).1.1)
  simp only [prefill]
  split_ifs with h1 h2 h3
  · simp [h1]
  · refine ⟨by simp [h1], ?_, by simp, by simp⟩
    intro s2 evs h
    simp only [Prefill.tokenize_failed.injEq] at h
    obtain ⟨rfl, rfl⟩ := h
    exact ⟨rfl, _, _, _, rfl⟩
  · refine ⟨by simp [h1], by simp, ?_, by simp⟩
    intro s3 evs h
    simp only [Prefill.decode_failed.injEq] at h
    obtain ⟨rfl, rfl⟩ := h
    exact ⟨rfl, _, _, _, _, _, by simpa using h3, rfl⟩
  · refine ⟨by simp [h1], by simp, by simp, ?_⟩
    intro s3 evs n h
    simp only [Prefill.ready.injEq] at h
    obtain ⟨rfl, rfl, rfl⟩ := h
    refine ⟨rfl, by omega, hrange.2, rfl, ?_⟩
    have h0 : (eng.llama_decode (eng.llama_tokenize (eng.llama_tokenize s1.engine m prompt 0).2 m
        prompt (i32 (-(eng.llama_tokenize s1.engine m prompt 0).1.1)).toNat).2 c
        (fill_buffer (i32 (-(eng.llama_tokenize s1.engine m prompt 0).1.1)).toNat
          (eng.llama_tokenize (eng.llama_tokenize s1.engine m prompt 0).2 m prompt
            (i32 (-(eng.llama_tokenize s1.engine m prompt 0).1.1)).toNat).1.2)).1 = 0 := by
      simpa using h3
    rw [h0]
    exact ⟨_, _, _, _, rfl⟩

/-! ### The generate functions -/

theorem loaded_handles (s : State E) (h : is_model_loaded s = true) :
    ∃ m c sm, s.g_model = some m ∧ s.g_ctx = some c ∧ s.g_sampler = some sm := by
  obtain ⟨m, c, sm, g, st, cb, e⟩ := s
  cases m <;> cases c <;> cases sm <;> simp_all [is_model_loaded]

theorem generate_text_streaming_loaded (eng : Engine E) (sched : List Interleaving) (s : State E)
    (prompt : Text) (max_tokens : Int) (m c sm : Handle) (hm : s.g_model = some m)
    (hc : s.g_ctx = some c) (hsm : s.g_sampler = some sm) (hg : s.g_is_generating = false) :
    generate_text_streaming eng sched s prompt max_tokens =
      match prefill eng m c { s with g_is_generating := true, g_should_stop := false }
          prompt with
      | Prefill.threw => none
      | Prefill.tokenize_failed s2 evs =>
        some ({ s2 with g_is_generating := false }, evs ++ emit s2 err_tokenize)
      | Prefill.decode_failed s3 evs =>
        some ({ s3 with g_is_generating := false }, evs ++ emit s3 err_process_prompt)
      | Prefill.ready s3 evs n_prompt =>
        some ({ (stream_loop eng m c sm (size_t (n_prompt + max_tokens)) 4294967296
                  sched n_prompt 0 s3).1 with g_is_generating := false },
          evs ++ (stream_loop eng m c sm (size_t (n_prompt + max_tokens)) 4294967296
                  sched n_prompt 0 s3).2.2) := by
  obtain ⟨m1, c1, sm1, g, st, cb, e⟩ := s
  simp only at hm hc hsm hg
  subst hm hc hsm hg
  simp only [generate_text_streaming, Bool.false_eq_true, if_false]

theorem generate_text_loaded (eng : Engine E) (s : State E)
    (prompt : Text) (max_tokens : Int) (m c sm : Handle) (hm : s.g_model = some m)
    (hc : s.g_ctx = some c) (hsm : s.g_sampler = some sm) (hg : s.g_is_generating = false) :
    generate_text eng s prompt max_tokens =
      match prefill eng m c { s with g_is_generating := true, g_should_stop := false }
          prompt with
      | Prefill.threw => none
      | Prefill.tokenize_failed s2 evs =>
        some (c_str err_tokenize, { s2 with g_is_generating := false }, evs)
      | Prefill.decode_failed s3 evs =>
        some (c_str err_process_prompt, { s3 with g_is_generating := false }, evs)
      | Prefill.ready s3 evs _ =>
        some (c_str (text_loop eng m c sm max_tokens max_tokens.toNat 0 s3).2.2,
          { (text_loop eng m c sm max_tokens max_tokens.toNat 0 s3).1 with
              g_is_generating := false },
          evs ++ (text_loop eng m c sm max_tokens max_tokens.toNat 0 s3).2.1) := by
  obtain ⟨m1, c1, sm1, g, st, cb, e⟩ := s
  simp only at hm hc hsm hg
  subst hm hc hsm hg
  simp only [generate_text, Bool.false_eq_true, if_false]

theorem streaming_not_loaded (eng : Engine E) (sched : List Interleaving) (s : State E)
    (prompt : Text) (max_tokens : Int) (h : is_model_loaded s = false) :
    generate_text_streaming eng sched s prompt max_tokens = some (s, emit s err_no_model) := by
  obtain ⟨m, c, sm, g, st, cb, e⟩ := s
  cases m <;> cases c <;> cases sm <;>
    simp_all [is_model_loaded, generate_text_streaming]

theorem text_not_loaded (eng : Engine E) (s : State E) (prompt : Text) (max_tokens : Int)
    (h : is_model_loaded s = false) :
    generate_text eng s prompt max_tokens = some (c_str err_no_model, s, []) := by
  obtain ⟨m, c, sm, g, st, cb, e⟩ := s
  cases m <;> cases c <;> cases sm <;>
    simp_all [is_model_loaded, generate_text]

theorem streaming_busy (eng : Engine E) (sched : List Interleaving) (s : State E)
    (prompt : Text) (max_tokens : Int) (h : is_model_loaded s = true)
    (hg : s.g_is_generating = true) :
    generate_text_streaming eng sched s prompt max_tokens =
      some (s, emit s err_already_generating) := by
  obtain ⟨m, c, sm, g, st, cb, e⟩ := s
  cases m <;> cases c <;> cases sm <;>
    simp_all [is_model_loaded, generate_text_streaming]

theorem text_busy (eng : Engine E) (s : State E) (prompt : Text) (max_tokens : Int)
    (h : is_model_loaded s = true) (hg : s.g_is_generating = true) :
    generate_text eng s prompt max_tokens = some (c_str err_already_generating, s, []) := by
  obtain ⟨m, c, sm, g, st, cb, e⟩ := s
  cases m <;> cases c <;> cases sm <;>
    simp_all [is_model_loaded, generate_text]

theorem streaming_idle_state (eng : Engine E) (sched : List Interleaving) (s : State E)
    (prompt : Text) (max_tokens : Int) (h : is_model_loaded s = true)
    (hg : s.g_is_generating = false) (s1 : State E) (evs : List Event)
    (hr : generate_text_streaming eng sched s prompt max_tokens = some (s1, evs)) :
    s1.g_is_generating = false ∧ s1.g_model = s.g_model ∧ s1.g_ctx = s.g_ctx ∧
      s1.g_sampler = s.g_sampler := by
  obtain ⟨m, c, sm, hm, hc, hsm⟩ := loaded_handles s h
  rw [generate_text_streaming_loaded eng sched s prompt max_tokens m c sm hm hc hsm hg] at hr
  have hp := prefill_spec eng m c { s with g_is_generating := true, g_should_stop := false }
    prompt
  cases hpre : prefill eng m c { s with g_is_generating := true, g_should_stop := false }
    prompt with
  | threw => rw [hpre] at hr; simp at hr
  | tokenize_failed s2 ev2 =>
    rw [hpre] at hr
    simp only [Option.some.injEq, Prod.mk.injEq] at hr
    obtain ⟨rfl, _⟩ := hr
    have h2 := (hp.2.1 s2 ev2 hpre).1
    refine ⟨rfl, ?_, ?_, ?_⟩ <;> simp only <;> rw [h2]
  | decode_failed s3 ev3 =>
    rw [hpre] at hr
    simp only [Option.some.injEq, Prod.mk.injEq] at hr
    obtain ⟨rfl, _⟩ := hr
    have h2 := (hp.2.2.1 s3 ev3 hpre).1
    refine ⟨rfl, ?_, ?_, ?_⟩ <;> simp only <;> rw [h2]
  | ready s3 ev3 n =>
    rw [hpre] at hr
    simp only [Option.some.injEq, Prod.mk.injEq] at hr
    obtain ⟨rfl, _⟩ := hr
    have h2 := (hp.2.2.2 s3 ev3 n hpre).1
    obtain ⟨l1, l2, l3, _, _, _⟩ := stream_loop_spec (fun _ => True) eng m c sm
      (size_t (n + max_tokens)) 4294967296 sched n 0 s3 trivial
      (fun _ _ _ _ => trivial)
    refine ⟨rfl, ?_, ?_, ?_⟩ <;> simp only
    · rw [l1, h2]
    · rw [l2, h2]
    · rw [l3, h2]

theorem text_idle_state (eng : Engine E) (s : State E)
    (prompt : Text) (max_tokens : Int) (h : is_model_loaded s = true)
    (hg : s.g_is_generating = false) (t : Text) (s1 : State E) (evs : List Event)
    (hr : generate_text eng s prompt max_tokens = some (t, s1, evs)) :
    s1.g_is_generating = false ∧ s1.g_model = s.g_model ∧ s1.g_ctx = s.g_ctx ∧
      s1.g_sampler = s.g_sampler ∧ s1.g_token_callback = s.g_token_callback := by
  obtain ⟨m, c, sm, hm, hc, hsm⟩ := loaded_handles s h
  rw [generate_text_loaded eng s prompt max_tokens m c sm hm hc hsm hg] at hr
  have hp := prefill_spec eng m c { s with g_is_generating := true, g_should_stop := false }
    prompt
  cases hpre : prefill eng m c { s with g_is_generating := true, g_should_stop := false }
    prompt with
  | threw => rw [hpre] at hr; simp at hr
  | tokenize_failed s2 ev2 =>
    rw [hpre] at hr
    simp only [Option.some.injEq, Prod.mk.injEq] at hr
    obtain ⟨_, rfl, _⟩ := hr
    have h2 := (hp.2.1 s2 ev2 hpre).1
    refine ⟨rfl, ?_, ?_, ?_, ?_⟩ <;> simp only <;> rw [h2]
  | decode_failed s3 ev3 =>
    rw [hpre] at hr
    simp only [Option.some.injEq, Prod.mk.injEq] at hr
    obtain ⟨_, rfl, _⟩ := hr
    have h2 := (hp.2.2.1 s3 ev3 hpre).1
    refine ⟨rfl, ?_, ?_, ?_, ?_⟩ <;> simp only <;> rw [h2]
  | ready s3 ev3 n =>
    rw [hpre] at hr
    simp only [Option.some.injEq, Prod.mk.injEq] at hr
    obtain ⟨_, rfl, _⟩ := hr
    have h2 := (hp.2.2.2 s3 ev3 n hpre).1
    obtain ⟨l1, l2, l3, _, l5⟩ := text_loop_state eng m c sm max_tokens max_tokens.toNat 0 s3
    refine ⟨rfl, ?_, ?_, ?_, ?_⟩ <;> simp only
    · rw [l1, h2]
    · rw [l2, h2]
    · rw [l3, h2]
    · rw [l5, h2]

/-! ### The fuel of the loops is never exhausted -/

theorem stream_loop_fuel_measure (eng : Engine E) (v c sm : Handle) (bound : Int)
    (μ : Int → Nat)
    (hμ : ∀ n, InRange32 n → size_t n < bound → μ (i32 (n + 1)) < μ n) (k : Nat) :
    ∀ (k2 : Nat) (sched : List Interleaving) (n_pos nd : Int) (s : State E),
      InRange32 n_pos → μ n_pos ≤ k → μ n_pos ≤ k2 →
      stream_loop eng v c sm bound k sched n_pos nd s =
        stream_loop eng v c sm bound k2 sched n_pos nd s := by
  induction k with
  | zero =>
    intro k2 sched n_pos nd s hr h1 _
    have hc : ¬ size_t n_pos < bound := fun hc => by
      have := hμ n_pos hr hc
      omega
    cases k2 with
    | zero => rfl
    | succ k2 => rw [stream_loop_succ, if_neg hc]; rfl
  | succ k ih =>
    intro k2 sched n_pos nd s hr h1 h2
    cases k2 with
    | zero =>
      have hc : ¬ size_t n_pos < bound := fun hc => by
        have := hμ n_pos hr hc
        omega
      rw [stream_loop_succ, if_neg hc]; rfl
    | succ k2 =>
      rw [stream_loop_succ, stream_loop_succ]
      by_cases hc : size_t n_pos < bound
      · have hlt := hμ n_pos hr hc
        have e : ∀ (s1 : State E),
            stream_loop eng v c sm bound k sched.tail (i32 (n_pos + 1)) (i32 (nd + 1)) s1 =
            stream_loop eng v c sm bound k2 sched.tail (i32 (n_pos + 1)) (i32 (nd + 1)) s1 :=
          fun s1 => ih k2 sched.tail (i32 (n_pos + 1)) (i32 (nd + 1)) s1 (i32_range _)
            (by omega) (by omega)
        simp only [e]
      · simp only [if_neg hc]

/-- The loop of `generate_text_streaming` never runs out of the 2^32 steps the embedding
gives it: with any larger number of steps the result is the same. -/
theorem stream_loop_fuel (eng : Engine E) (v c sm : Handle) (bound : Int)
    (hb : bound < 18446744073709551616) (k : Nat) (hk : 4294967296 ≤ k)
    (sched : List Interleaving) (n_pos nd : Int) (s : State E) (hr : InRange32 n_pos) :
    stream_loop eng v c sm bound k sched n_pos nd s =
      stream_loop eng v c sm bound 4294967296 sched n_pos nd s := by
  apply stream_loop_fuel_measure eng v c sm bound
    (fun n => ((-1 - n) % 4294967296).toNat) _ k 4294967296 sched n_pos nd s hr
  · show ((-1 - n_pos) % 4294967296).toNat ≤ k
    omega
  · show ((-1 - n_pos) % 4294967296).toNat ≤ 4294967296
    omega
  · intro n hn hc
    unfold InRange32 at hn
    unfold size_t at hc
    show ((-1 - i32 (n + 1)) % 4294967296).toNat < ((-1 - n) % 4294967296).toNat
    unfold i32
    omega

/-- The call site in `generate_text_streaming`: the bound is a `size_t` value and the
counter starts at an `int` value, so the 2^32 steps given there are enough. -/
theorem stream_loop_fuel_at_call (eng : Engine E) (v c sm : Handle) (r1 max_tokens : Int)
    (k : Nat) (hk : 4294967296 ≤ k) (sched : List Interleaving) (s : State E) :
    stream_loop eng v c sm (size_t (i32 (-r1) + max_tokens)) k sched (i32 (-r1)) 0 s =
      stream_loop eng v c sm (size_t (i32 (-r1) + max_tokens)) 4294967296 sched
        (i32 (-r1)) 0 s :=
  stream_loop_fuel eng v c sm _ (by unfold size_t; omega) k hk sched _ 0 s (i32_range _)

theorem text_loop_fuel_measure (eng : Engine E) (v c sm : Handle) (max_tokens : Int)
    (k : Nat) :
    ∀ (k2 : Nat) (i : Int) (s : State E),
      (max_tokens - i).toNat ≤ k → (max_tokens - i).toNat ≤ k2 →
      text_loop eng v c sm max_tokens k i s = text_loop eng v c sm max_tokens k2 i s := by
  induction k with
  | zero =>
    intro k2 i s h1 _
    have hc : ¬ i < max_tokens := by omega
    cases k2 with
    | zero => rfl
    | succ k2 => rw [text_loop_succ, if_neg hc]; rfl
  | succ k ih =>
    intro k2 i s h1 h2
    cases k2 with
    | zero =>
      have hc : ¬ i < max_tokens := by omega
      rw [text_loop_succ, if_neg hc]; rfl
    | succ k2 =>
      rw [text_loop_succ, text_loop_succ]
      by_cases hc : i < max_tokens
      · have e : ∀ (s1 : State E),
            text_loop eng v c sm max_tokens k (i + 1) s1 =
            text_loop eng v c sm max_tokens k2 (i + 1) s1 :=
          fun s1 => ih k2 (i + 1) s1 (by omega) (by omega)
        simp only [e]
      · simp only [if_neg hc]

/-- The loop of `generate_text` never runs out of the `max_tokens` steps the embedding gives
it: with any larger number of steps the result is the same. -/
theorem text_loop_fuel (eng : Engine E) (v c sm : Handle) (max_tokens : Int) (k : Nat)
    (hk : max_tokens.toNat ≤ k) (s : State E) :
    text_loop eng v c sm max_tokens k 0 s =
      text_loop eng v c sm max_tokens max_tokens.toNat 0 s :=
  text_loop_fuel_measure eng v c sm max_tokens k max_tokens.toNat 0 s (by simpa using hk)
    (by simp)

/-! ### The claims about the session state -/

theorem streaming_handles (eng : Engine E) (sched : List Interleaving) (s : State E)
    (prompt : Text) (max_tokens : Int) (s1 : State E) (evs : List Event)
    (hr : generate_text_streaming eng sched s prompt max_tokens = some (s1, evs)) :
    s1.g_model = s.g_model ∧ s1.g_ctx = s.g_ctx ∧ s1.g_sampler = s.g_sampler := by
  cases hl : is_model_loaded s with
  | false =>
    rw [streaming_not_loaded eng sched s prompt max_tokens hl] at hr
    simp only [Option.some.injEq, Prod.mk.injEq] at hr
    obtain ⟨rfl, _⟩ := hr
    exact ⟨rfl, rfl, rfl⟩
  | true =>
    cases hg : s.g_is_generating with
    | true =>
      rw [streaming_busy eng sched s prompt max_tokens hl hg] at hr
      simp only [Option.some.injEq, Prod.mk.injEq] at hr
      obtain ⟨rfl, _⟩ := hr
      exact ⟨rfl, rfl, rfl⟩
    | false =>
      obtain ⟨_, h1, h2, h3⟩ :=
        streaming_idle_state eng sched s prompt max_tokens hl hg s1 evs hr
      exact ⟨h1, h2, h3⟩

theorem text_handles (eng : Engine E) (s : State E)
    (prompt : Text) (max_tokens : Int) (t : Text) (s1 : State E) (evs : List Event)
    (hr : generate_text eng s prompt max_tokens = some (t, s1, evs)) :
    s1.g_model = s.g_model ∧ s1.g_ctx = s.g_ctx ∧ s1.g_sampler = s.g_sampler := by
  cases hl : is_model_loaded s with
  | false =>
    rw [text_not_loaded eng s prompt max_tokens hl] at hr
    simp only [Option.some.injEq, Prod.mk.injEq] at hr
    obtain ⟨_, rfl, _⟩ := hr
    exact ⟨rfl, rfl, rfl⟩
  | true =>
    cases hg : s.g_is_generating with
    | true =>
      rw [text_busy eng s prompt max_tokens hl hg] at hr
      simp only [Option.some.injEq, Prod.mk.injEq] at hr
      obtain ⟨_, rfl, _⟩ := hr
      exact ⟨rfl, rfl, rfl⟩
    | false =>
      obtain ⟨_, h1, h2, h3, _⟩ := text_idle_state eng s prompt max_tokens hl hg t s1 evs hr
      exact ⟨h1, h2, h3⟩

theorem consistent_of_eq (s s1 : State E) (h1 : s1.g_model = s.g_model)
    (h2 : s1.g_ctx = s.g_ctx) (h3 : s1.g_sampler = s.g_sampler)
    (h : handles_consistent s = true) : handles_consistent s1 = true := by
  simpa [handles_consistent, h1, h2, h3] using h

/-- C2 (amended): for every engine whose sampler chain creation never answers null (model
load and context creation may each succeed or fail), in every state reachable from the
empty session by completed `load_model`, `unload_model`, `set_token_callback`,
`generate_text_streaming`, `generate_text` and `cancel_generation` calls, the model, context
and sampler handles are all null or all non-null. -/
theorem handles_all_or_none (eng : Engine E) (hs : SamplerNeverNull eng) (e0 : E)
    (s : State E) (h : Reachable eng e0 s) : handles_consistent s = true := by
  induction h with
  | start => rfl
  | @call s0 s1 c _ hc ih =>
    cases c with
    | load p a b n =>
      simp only [Call.exec, Option.some.injEq] at hc
      subst hc
      rcases load_model_cases eng s0 p a b n with ⟨_, h2, h3, h4⟩ | ⟨_, h2, h3, e, h4⟩
      · simp [handles_consistent, h2, h3, h4]
      · simp [handles_consistent, h2, h3, h4, hs e]
    | unload =>
      simp only [Call.exec, Option.some.injEq] at hc
      subst hc
      have hf := free_existing_state eng s0
      simp [handles_consistent, unload_model, hf.1, hf.2.1, hf.2.2.1]
    | set_callback cb =>
      simp only [Call.exec, Option.some.injEq] at hc
      subst hc
      exact consistent_of_eq s0 _ rfl rfl rfl ih
    | stream sched prompt max_tokens =>
      simp only [Call.exec, Option.map_eq_some'] at hc
      obtain ⟨⟨s2, evs⟩, hr, rfl⟩ := hc
      obtain ⟨h1, h2, h3⟩ := streaming_handles eng sched s0 prompt max_tokens s2 evs hr
      exact consistent_of_eq s0 _ h1 h2 h3 ih
    | text prompt max_tokens =>
      simp only [Call.exec, Option.map_eq_some'] at hc
      obtain ⟨⟨t, s2, evs⟩, hr, rfl⟩ := hc
      obtain ⟨h1, h2, h3⟩ := text_handles eng s0 prompt max_tokens t s2 evs hr
      exact consistent_of_eq s0 _ h1 h2 h3 ih
    | cancel =>
      simp only [Call.exec, Option.some.injEq] at hc
      subst hc
      exact consistent_of_eq s0 _ rfl rfl rfl ih

theorem mock_loaded_reachable : Reachable mock 0 mock_loaded :=
  Reachable.call (Call.load [] 2048 4 0)
    (Reachable.call (Call.set_callback (some 9)) Reachable.start rfl) rfl

theorem handles_all_or_none_witness :
    SamplerNeverNull mock ∧ Reachable mock 0 mock_loaded ∧
    handles_consistent mock_loaded = true :=
  ⟨mock_sampler_never_null, mock_loaded_reachable,
    handles_all_or_none mock mock_sampler_never_null 0 mock_loaded mock_loaded_reachable⟩

/-- C2 as stated fails: when the engine answers `llama_sampler_chain_init` with null, one
`load_model` call on the empty session leaves the model and context handles non-null and the
sampler handle null. -/
theorem partial_state_with_null_sampler :
    Reachable mock_null_sampler 0 (load_model mock_null_sampler (State.empty 0) [] 2048 4 0).2.1 ∧
    (load_model mock_null_sampler (State.empty 0) [] 2048 4 0).2.1.g_model = some 1 ∧
    (load_model mock_null_sampler (State.empty 0) [] 2048 4 0).2.1.g_ctx = some 2 ∧
    (load_model mock_null_sampler (State.empty 0) [] 2048 4 0).2.1.g_sampler = none ∧
    handles_consistent (load_model mock_null_sampler (State.empty 0) [] 2048 4 0).2.1 = false :=
  ⟨Reachable.call (Call.load [] 2048 4 0) Reachable.start rfl, by decide, by decide, by decide,
    by decide⟩

/-- C4 (amended): in every state in which no model is loaded, for every prompt and
`max_tokens`, `generate_text_streaming` makes no engine call: it tests the callback pointer
and delivers exactly one fragment, the text "Error: No model loaded", when a token callback
is registered, and nothing at all when the callback is null; `generate_text` makes no engine
call and returns that text; both leave every global as it was, the generation flag
included. -/
theorem no_model_generation (eng : Engine E) (s : State E) (sched : List Interleaving)
    (prompt : Text) (max_tokens : Int) (h : is_model_loaded s = false) :
    generate_text_streaming eng sched s prompt max_tokens =
      some (s, Event.callback_test s.g_token_callback ::
        match s.g_token_callback with
        | some cb => [Event.callback cb err_no_model]
        | none => []) ∧
    generate_text eng s prompt max_tokens = some (err_no_model, s, []) := by
  refine ⟨?_, ?_⟩
  · rw [streaming_not_loaded eng sched s prompt max_tokens h]
    cases hcb : s.g_token_callback <;> simp [emit, deliver, hcb, c_str_err_no_model]
  · rw [text_not_loaded eng s prompt max_tokens h, c_str_err_no_model]

theorem no_model_generation_witness :
    is_model_loaded (set_token_callback (State.empty 0) (some 9)) = false ∧
    generate_text_streaming mock [] (set_token_callback (State.empty 0) (some 9)) [] 5 =
      some (set_token_callback (State.empty 0) (some 9),
        [Event.callback_test (some 9), Event.callback 9 err_no_model]) ∧
    generate_text mock (set_token_callback (State.empty 0) (some 9)) [] 5 =
      some (err_no_model, set_token_callback (State.empty 0) (some 9), []) :=
  ⟨rfl, no_model_generation mock (set_token_callback (State.empty 0) (some 9)) [] [] 5 rfl⟩

/-- C4 as stated fails: on the empty session, where no model is loaded and no callback is
registered, `generate_text_streaming` finds the callback pointer null and delivers no
fragment at all. -/
theorem no_fragment_without_callback :
    is_model_loaded (State.empty 0) = false ∧
    generate_text_streaming mock [] (State.empty 0) [] 5 =
      some (State.empty 0, [Event.callback_test none]) ∧
    fragments [Event.callback_test none] = [] := by
  decide

/-- C5: from a loaded session whose generation flag is false, for every prompt,
`max_tokens`, engine behaviour and schedule of unlocked calls landing during the loop
(`cancel_generation`, `set_token_callback`), whenever
`generate_text_streaming` or `generate_text` returns (through any of its exits) the generation
flag is false and the model, context and sampler handles are those of before the call; and
the call does return whenever the prompt size `n_prompt` the tokenizer reports is not
negative. -/
theorem generation_flag_cleared (eng : Engine E) (sched : List Interleaving) (s : State E)
    (prompt : Text) (max_tokens : Int) (hl : is_model_loaded s = true)
    (hg : s.g_is_generating = false) :
    (∀ s1 evs, generate_text_streaming eng sched s prompt max_tokens = some (s1, evs) →
      is_generating s1 = false ∧ s1.g_model = s.g_model ∧ s1.g_ctx = s.g_ctx ∧
        s1.g_sampler = s.g_sampler) ∧
    (∀ t s1 evs, generate_text eng s prompt max_tokens = some (t, s1, evs) →
      is_generating s1 = false ∧ s1.g_model = s.g_model ∧ s1.g_ctx = s.g_ctx ∧
        s1.g_sampler = s.g_sampler) ∧
    (∀ m, s.g_model = some m → 0 ≤ i32 (-(eng.llama_tokenize s.engine m prompt 0).1.1) →
      (generate_text_streaming eng sched s prompt max_tokens).isSome = true ∧
      (generate_text eng s prompt max_tokens).isSome = true) := by
  refine ⟨?_, ?_, ?_⟩
  · intro s1 evs hr
    exact streaming_idle_state eng sched s prompt max_tokens hl hg s1 evs hr
  · intro t s1 evs hr
    obtain ⟨h0, h1, h2, h3, _⟩ := text_idle_state eng s prompt max_tokens hl hg t s1 evs hr
    exact ⟨h0, h1, h2, h3⟩
  · intro m hm hn
    obtain ⟨m1, c, sm, hm1, hc, hsm⟩ := loaded_handles s hl
    have hmm : m1 = m := by rw [hm] at hm1; exact (Option.some.inj hm1).symm
    subst hmm
    have hp := (prefill_spec eng m1 c { s with g_is_generating := true, g_should_stop := false }
      prompt).1
    have hne : prefill eng m1 c { s with g_is_generating := true, g_should_stop := false }
        prompt ≠ Prefill.threw := fun h => by
      have := hp.1 h
      simp only at this
      omega
    rw [generate_text_streaming_loaded eng sched s prompt max_tokens m1 c sm hm hc hsm hg,
      generate_text_loaded eng s prompt max_tokens m1 c sm hm hc hsm hg]
    cases hpre : prefill eng m1 c { s with g_is_generating := true, g_should_stop := false }
      prompt with
    | threw => exact absurd hpre hne
    | tokenize_failed s2 ev2 => exact ⟨rfl, rfl⟩
    | decode_failed s3 ev3 => exact ⟨rfl, rfl⟩
    | ready s3 ev3 n => exact ⟨rfl, rfl⟩

theorem generation_flag_cleared_witness :
    is_model_loaded mock_loaded = true ∧ mock_loaded.g_is_generating = false ∧
    generate_text_streaming mock [] mock_loaded [] 1 =
      some ({ mock_loaded with engine := 1 }, mock_opening ++ mock_step 0) ∧
    is_generating { mock_loaded with engine := 1 } = false ∧
    (generate_text mock mock_loaded [] 1).isSome = true :=
  ⟨rfl, rfl, by decide,
    ((generation_flag_cleared mock [] mock_loaded [] 1 rfl rfl).1
      { mock_loaded with engine := 1 } (mock_opening ++ mock_step 0) (by decide)).1,
    ((generation_flag_cleared mock [] mock_loaded [] 1 rfl rfl).2.2 1 rfl (by decide)).2⟩

/-! ### The trace of a streaming call -/

theorem c_str_err_convert : c_str err_convert = err_convert := by decide

theorem c_str_err_decode : c_str err_decode = err_decode := by decide

theorem streaming_anatomy (ok : Option Handle → Prop) (eng : Engine E)
    (sched : List Interleaving) (s : State E)
    (prompt : Text) (max_tokens : Int) (m c sm : Handle) (hm : s.g_model = some m)
    (hc : s.g_ctx = some c) (hsm : s.g_sampler = some sm) (h0 : ok s.g_token_callback)
    (hs : ∀ il ∈ sched, il.SetsOk ok) (s1 : State E) (evs : List Event)
    (hr : generate_text_streaming eng sched s prompt max_tokens = some (s1, evs)) :
    evs = emit s err_already_generating ∨
    (∃ r1 n r2, evs = [Event.tokenize prompt 0 r1, Event.tokenize prompt n r2] ++
      emit s err_tokenize) ∨
    (∃ r1 n r2 pt r3, r3 ≠ 0 ∧
      evs = [Event.tokenize prompt 0 r1, Event.tokenize prompt n r2, Event.decode c pt r3] ++
        emit s err_process_prompt) ∨
    (∃ r1 n r2 pt loop,
      evs = [Event.tokenize prompt 0 r1, Event.tokenize prompt n r2, Event.decode c pt 0] ++
        loop ∧ LoopTrace ok sm c loop) := by
  have hl : is_model_loaded s = true := by simp [is_model_loaded, hm, hc, hsm]
  cases hg : s.g_is_generating with
  | true =>
    rw [streaming_busy eng sched s prompt max_tokens hl hg] at hr
    simp only [Option.some.injEq, Prod.mk.injEq] at hr
    exact Or.inl hr.2.symm
  | false =>
    rw [generate_text_streaming_loaded eng sched s prompt max_tokens m c sm hm hc hsm hg] at hr
    have hp := prefill_spec eng m c { s with g_is_generating := true, g_should_stop := false }
      prompt
    cases hpre : prefill eng m c { s with g_is_generating := true, g_should_stop := false }
      prompt with
    | threw => rw [hpre] at hr; simp at hr
    | tokenize_failed s2 ev2 =>
      rw [hpre] at hr
      simp only [Option.some.injEq, Prod.mk.injEq] at hr
      obtain ⟨h2, r1, n, r2, rfl⟩ := hp.2.1 s2 ev2 hpre
      refine Or.inr (Or.inl ⟨r1, n, r2, ?_⟩)
      rw [← hr.2, emit, emit, h2]
    | decode_failed s3 ev3 =>
      rw [hpre] at hr
      simp only [Option.some.injEq, Prod.mk.injEq] at hr
      obtain ⟨h2, r1, n, r2, pt, r3, h3, rfl⟩ := hp.2.2.1 s3 ev3 hpre
      refine Or.inr (Or.inr (Or.inl ⟨r1, n, r2, pt, r3, h3, ?_⟩))
      rw [← hr.2, emit, emit, h2]
    | ready s3 ev3 np =>
      rw [hpre] at hr
      simp only [Option.some.injEq, Prod.mk.injEq] at hr
      obtain ⟨h2, _, _, _, r1, n, r2, pt, rfl⟩ := hp.2.2.2 s3 ev3 np hpre
      refine Or.inr (Or.inr (Or.inr ⟨r1, n, r2, pt, _, hr.2.symm, ?_⟩))
      have hcb : s3.g_token_callback = s.g_token_callback := by rw [h2]
      exact (stream_loop_spec ok eng m c sm _ _ sched np 0 s3 (by rw [hcb]; exact h0)
        hs).2.2.2.2.2

theorem marks_silent (ms : List Event) (h : AllMarks ms) :
    sampled ms = [] ∧ eog_tests ms = [] ∧ conversions ms = [] ∧ guard_tests ms = [] ∧
    deliveries ms = [] ∧ decode_failed ms = false := by
  induction ms with
  | nil => simp [sampled, eog_tests, conversions, guard_tests, deliveries, decode_failed]
  | cons e rest ih =>
    have hrest : AllMarks rest := fun x hx => h x (List.mem_cons_of_mem _ hx)
    obtain ⟨i1, i2, i3, i4, i5, i6⟩ := ih hrest
    simp only [sampled, eog_tests, conversions, guard_tests, deliveries, decode_failed]
      at i1 i2 i3 i4 i5 i6
    rcases h e (List.mem_cons_self _ _) with rfl | ⟨cb, rfl⟩ <;>
      simp [sampled, eog_tests, conversions, guard_tests, deliveries, decode_failed,
        i1, i2, i3, i4, i5, i6]

theorem sampled_append (a b : List Event) : sampled (a ++ b) = sampled a ++ sampled b := by
  simp [sampled]

theorem split_past {α : Type} (xs : List α) :
    ∀ (ys pre post : List α) (x : α), xs ++ ys = pre ++ x :: post → x ∉ xs →
      ∃ pre2, pre = xs ++ pre2 ∧ ys = pre2 ++ x :: post := by
  induction xs with
  | nil => intro ys pre post x h _; exact ⟨pre, rfl, h⟩
  | cons a rest ih =>
    intro ys pre post x h hx
    cases pre with
    | nil =>
      simp only [List.cons_append, List.nil_append, List.cons.injEq] at h
      exact absurd (List.mem_cons.2 (Or.inl h.1.symm)) hx
    | cons b pre1 =>
      simp only [List.cons_append, List.cons.injEq] at h
      obtain ⟨pre2, h1, h2⟩ := ih ys pre1 post x h.2
        (fun hm => hx (List.mem_cons_of_mem _ hm))
      exact ⟨pre2, by rw [h.1, h1]; rfl, h2⟩

theorem marks_no_callback (ms : List Event) (h : AllMarks ms) (f : Handle) (text : Text) :
    Event.callback f text ∉ ms := by
  intro hm
  rcases h _ hm with h1 | ⟨cb, h1⟩ <;> cases h1

theorem in_place_extend (sm c : Handle) (x pre : List Event) (f : Handle) (text : Text)
    (post : List Event) (h : InPlace sm c pre f text post) :
    InPlace sm c (x ++ pre) f text post := by
  rcases h with ⟨pre1, tok, piece, ms, dr, post1, h1, h2, h3, h4⟩ |
    ⟨pre1, tok, ms, h1, h2, h3, h4⟩ | ⟨pre1, tok, dr, ms, h0, h1, h2, h3, h4⟩
  · exact Or.inl ⟨x ++ pre1, tok, piece, ms, dr, post1, h1,
      by rw [h2, List.append_assoc], h3, h4⟩
  · exact Or.inr (Or.inl ⟨x ++ pre1, tok, ms, h1, by rw [h2, List.append_assoc], h3, h4⟩)
  · exact Or.inr (Or.inr ⟨x ++ pre1, tok, dr, ms, h0, h1,
      by rw [h2, List.append_assoc], h3, h4⟩)

theorem not_mem_step_head (sm c : Handle) (tok : Token) (r : Option Text) (m1 : List Event)
    (hm1 : AllMarks m1) (r1 : Option Handle) (f : Handle) (text : Text) :
    Event.callback f text ∉ Event.sample sm c tok :: Event.is_eog tok false ::
      Event.token_to_piece tok r :: (m1 ++ [Event.callback_test r1]) := by
  have := marks_no_callback m1 hm1 f text
  simp [this]

theorem not_mem_decode_head (c : Handle) (tok : Token) (dr : Int) (m2 : List Event)
    (hm2 : AllMarks m2) (r2 : Option Handle) (f : Handle) (text : Text) :
    Event.callback f text ∉ Event.decode c [tok] dr :: (m2 ++ [Event.callback_test r2]) := by
  have := marks_no_callback m2 hm2 f text
  simp [this]

theorem last_delivery (r : Option Handle) (err : Text) (pre post : List Event) (f : Handle)
    (text : Text) (h : deliver r err = pre ++ Event.callback f text :: post) :
    r = some f ∧ text = c_str err ∧ pre = [] ∧ post = [] := by
  cases r with
  | none => simp [deliver] at h
  | some f1 =>
    cases pre with
    | nil =>
      simp only [deliver, List.nil_append, List.cons.injEq, Event.callback.injEq] at h
      exact ⟨by rw [h.1.1], h.1.2.symm, rfl, h.2.symm⟩
    | cons y pre2 =>
      simp only [deliver, List.cons_append, List.cons.injEq] at h
      have := h.2
      simp at this

theorem loop_trace_in_place (ok : Option Handle → Prop) (sm c : Handle) (loop : List Event)
    (h : LoopTrace ok sm c loop) :
    ∀ (pre post : List Event) (f : Handle) (text : Text),
      loop = pre ++ Event.callback f text :: post → InPlace sm c pre f text post := by
  induction h with
  | done => intro pre post f text h; simp at h
  | marked ms hm _ ih =>
    intro pre post f text h
    obtain ⟨pre2, h1, h2⟩ := split_past ms _ pre post _ h (marks_no_callback ms hm f text)
    rw [h1]
    exact in_place_extend sm c ms pre2 f text post (ih pre2 post f text h2)
  | eog tok =>
    intro pre post f text h
    have h' : [Event.sample sm c tok, Event.is_eog tok true] ++ [] =
        pre ++ Event.callback f text :: post := by simpa using h
    obtain ⟨pre2, _, h2⟩ := split_past _ _ pre post _ h' (by simp)
    simp at h2
  | convert_failed tok m1 r hm1 _ =>
    intro pre post f text h
    have h' : (Event.sample sm c tok :: Event.is_eog tok false ::
        Event.token_to_piece tok none :: (m1 ++ [Event.callback_test r])) ++
        deliver r err_convert = pre ++ Event.callback f text :: post := by
      simpa [List.append_assoc] using h
    obtain ⟨pre2, h1, h2⟩ := split_past _ _ pre post _ h'
      (not_mem_step_head sm c tok none m1 hm1 r f text)
    obtain ⟨e1, e2, e3, e4⟩ := last_delivery r err_convert pre2 post f text h2
    subst e1 e3
    refine Or.inr (Or.inl ⟨[], tok, m1, hm1, ?_, by rw [e2, c_str_err_convert], e4⟩)
    rw [h1]
    simp
  | decode_failed tok piece m1 r1 dr m2 r2 hm1 _ hdr hm2 _ =>
    intro pre post f text h
    have h' : (Event.sample sm c tok :: Event.is_eog tok false ::
        Event.token_to_piece tok (some piece) :: (m1 ++ [Event.callback_test r1])) ++
        (deliver r1 piece ++ ((Event.decode c [tok] dr :: (m2 ++ [Event.callback_test r2])) ++
          deliver r2 err_decode)) = pre ++ Event.callback f text :: post := by
      simpa [List.append_assoc] using h
    obtain ⟨pre2, h1, h2⟩ := split_past _ _ pre post _ h'
      (not_mem_step_head sm c tok (some piece) m1 hm1 r1 f text)
    have tail : ∀ pre3, (Event.decode c [tok] dr :: (m2 ++ [Event.callback_test r2])) ++
        deliver r2 err_decode = pre3 ++ Event.callback f text :: post →
        ∃ ms, AllMarks ms ∧ pre3 = Event.decode c [tok] dr ::
          (ms ++ [Event.callback_test (some f)]) ∧ text = err_decode ∧ post = [] := by
      intro pre3 h3
      obtain ⟨pre4, k1, k2⟩ := split_past _ _ pre3 post _ h3
        (not_mem_decode_head c tok dr m2 hm2 r2 f text)
      obtain ⟨e1, e2, e3, e4⟩ := last_delivery r2 err_decode pre4 post f text k2
      subst e1 e3
      exact ⟨m2, hm2, by rw [k1]; simp, by rw [e2, c_str_err_decode], e4⟩
    cases r1 with
    | none =>
      simp only [deliver, List.nil_append] at h2
      obtain ⟨ms, k0, k1, k2, k3⟩ := tail pre2 h2
      refine Or.inr (Or.inr ⟨Event.sample sm c tok :: Event.is_eog tok false ::
        Event.token_to_piece tok (some piece) :: (m1 ++ [Event.callback_test none]),
        tok, dr, ms, hdr, k0, ?_, k2, k3⟩)
      rw [h1, k1]
    | some f1 =>
      cases pre2 with
      | nil =>
        simp only [deliver, List.nil_append, List.cons_append, List.cons.injEq,
          Event.callback.injEq] at h2
        refine Or.inl ⟨[], tok, piece, m1, dr, _, hm1, ?_, h2.1.2.symm, h2.2.symm⟩
        rw [h1, ← h2.1.1]
        simp
      | cons y pre3 =>
        simp only [deliver, List.cons_append, List.nil_append, List.cons.injEq] at h2
        obtain ⟨ms, k0, k1, k2, k3⟩ := tail pre3 (by simpa using h2.2)
        refine Or.inr (Or.inr ⟨(Event.sample sm c tok :: Event.is_eog tok false ::
          Event.token_to_piece tok (some piece) :: (m1 ++ [Event.callback_test (some f1)])) ++
          [y], tok, dr, ms, hdr, k0, ?_, k2, k3⟩)
        rw [h1, k1]
        simp
  | @step tok piece m1 r1 rest hm1 _ _ ih =>
    intro pre post f text h
    have h' : (Event.sample sm c tok :: Event.is_eog tok false ::
        Event.token_to_piece tok (some piece) :: (m1 ++ [Event.callback_test r1])) ++
        (deliver r1 piece ++ ([Event.decode c [tok] 0] ++ rest)) =
        pre ++ Event.callback f text :: post := by
      simpa [List.append_assoc] using h
    obtain ⟨pre2, h1, h2⟩ := split_past _ _ pre post _ h'
      (not_mem_step_head sm c tok (some piece) m1 hm1 r1 f text)
    have tail : ∀ pre3, [Event.decode c [tok] 0] ++ rest =
        pre3 ++ Event.callback f text :: post →
        ∃ pre4, pre3 = [Event.decode c [tok] 0] ++ pre4 ∧ InPlace sm c pre4 f text post := by
      intro pre3 h3
      obtain ⟨pre4, k1, k2⟩ := split_past _ _ pre3 post _ h3 (by simp)
      exact ⟨pre4, k1, ih pre4 post f text k2⟩
    cases r1 with
    | none =>
      simp only [deliver, List.nil_append] at h2
      obtain ⟨pre4, k1, k2⟩ := tail pre2 h2
      rw [h1, k1, ← List.append_assoc]
      exact in_place_extend sm c _ pre4 f text post k2
    | some f1 =>
      cases pre2 with
      | nil =>
        simp only [deliver, List.nil_append, List.cons_append, List.cons.injEq,
          Event.callback.injEq] at h2
        refine Or.inl ⟨[], tok, piece, m1, 0, rest, hm1, ?_, h2.1.2.symm, h2.2.symm⟩
        rw [h1, ← h2.1.1]
        simp
      | cons y pre3 =>
        simp only [deliver, List.cons_append, List.nil_append, List.cons.injEq] at h2
        obtain ⟨pre4, k1, k2⟩ := tail pre3 (by simpa using h2.2)
        have e : pre = ((Event.sample sm c tok :: Event.is_eog tok false ::
            Event.token_to_piece tok (some piece) :: (m1 ++ [Event.callback_test (some f1)])) ++
            (y :: [Event.decode c [tok] 0])) ++ pre4 := by
          rw [h1, k1]
          simp
        rw [e]
        exact in_place_extend sm c _ pre4 f text post k2

theorem no_split {α : Type} (xs pre post : List α) (x : α) (h : x ∉ xs) :
    xs ≠ pre ++ x :: post := by
  intro e
  apply h
  rw [e]
  simp

theorem marks_no_conversion (ms : List Event) (h : AllMarks ms) (tok : Token)
    (r : Option Text) : Event.token_to_piece tok r ∉ ms := by
  intro hmem
  rcases h _ hmem with h1 | ⟨cb, h1⟩ <;> cases h1

theorem deliver_no_conversion (cb : Option Handle) (text : Text) (tok : Token)
    (r : Option Text) : Event.token_to_piece tok r ∉ deliver cb text := by
  cases cb <;> simp [deliver]

theorem loop_trace_after_conversion (ok : Option Handle → Prop) (sm c : Handle)
    (loop : List Event) (h : LoopTrace ok sm c loop) :
    ∀ (pre post : List Event) (tok : Token) (piece : Text),
      loop = pre ++ Event.token_to_piece tok (some piece) :: post →
      ∃ pre1 ms r dr post1, AllMarks ms ∧
        pre = pre1 ++ [Event.sample sm c tok, Event.is_eog tok false] ∧
        post = ms ++ Event.callback_test r :: (deliver r piece ++
          Event.decode c [tok] dr :: post1) := by
  induction h with
  | done => intro pre post tok piece h; simp at h
  | marked ms hm _ ih =>
    intro pre post tok piece h
    obtain ⟨pre2, h1, h2⟩ := split_past ms _ pre post _ h
      (marks_no_conversion ms hm tok (some piece))
    obtain ⟨pre1, ms1, r, dr, post1, k0, k1, k2⟩ := ih pre2 post tok piece h2
    exact ⟨ms ++ pre1, ms1, r, dr, post1, k0, by rw [h1, k1, List.append_assoc], k2⟩
  | eog tok0 =>
    intro pre post tok piece h
    exact absurd h (no_split _ pre post _ (by simp))
  | convert_failed tok0 m1 r hm1 _ =>
    intro pre post tok piece h
    refine absurd h (no_split _ pre post _ ?_)
    have a1 := marks_no_conversion m1 hm1 tok (some piece)
    have a2 := deliver_no_conversion r err_convert tok (some piece)
    simp [a1, a2]
  | decode_failed tok0 piece0 m1 r1 dr m2 r2 hm1 _ hdr hm2 _ =>
    intro pre post tok piece h
    have h' : [Event.sample sm c tok0, Event.is_eog tok0 false] ++
        (Event.token_to_piece tok0 (some piece0) :: (m1 ++ Event.callback_test r1 ::
          (deliver r1 piece0 ++ Event.decode c [tok0] dr ::
            (m2 ++ Event.callback_test r2 :: deliver r2 err_decode)))) =
        pre ++ Event.token_to_piece tok (some piece) :: post := by
      simpa [List.append_assoc] using h
    obtain ⟨pre2, h1, h2⟩ := split_past _ _ pre post _ h' (by simp)
    cases pre2 with
    | nil =>
      simp only [List.nil_append, List.cons.injEq, Event.token_to_piece.injEq,
        Option.some.injEq] at h2
      obtain ⟨⟨e1, e2⟩, e3⟩ := h2
      subst e1 e2
      exact ⟨[], m1, r1, dr, _, hm1, by rw [h1]; simp, e3.symm⟩
    | cons y pre3 =>
      simp only [List.cons_append, List.cons.injEq] at h2
      refine absurd h2.2 (no_split _ pre3 post _ ?_)
      have a1 := marks_no_conversion m1 hm1 tok (some piece)
      have a2 := deliver_no_conversion r1 piece0 tok (some piece)
      have a3 := marks_no_conversion m2 hm2 tok (some piece)
      have a4 := deliver_no_conversion r2 err_decode tok (some piece)
      simp [a1, a2, a3, a4]
  | @step tok0 piece0 m1 r1 rest hm1 _ _ ih =>
    intro pre post tok piece h
    have h' : [Event.sample sm c tok0, Event.is_eog tok0 false] ++
        (Event.token_to_piece tok0 (some piece0) :: ((m1 ++ Event.callback_test r1 ::
          (deliver r1 piece0 ++ [Event.decode c [tok0] 0])) ++ rest)) =
        pre ++ Event.token_to_piece tok (some piece) :: post := by
      simpa [List.append_assoc] using h
    obtain ⟨pre2, h1, h2⟩ := split_past _ _ pre post _ h' (by simp)
    cases pre2 with
    | nil =>
      simp only [List.nil_append, List.cons.injEq, Event.token_to_piece.injEq,
        Option.some.injEq] at h2
      obtain ⟨⟨e1, e2⟩, e3⟩ := h2
      subst e1 e2
      exact ⟨[], m1, r1, 0, rest, hm1, by rw [h1]; simp, by rw [← e3]; simp⟩
    | cons y pre3 =>
      simp only [List.cons_append, List.cons.injEq] at h2
      have a1 := marks_no_conversion m1 hm1 tok (some piece)
      have a2 := deliver_no_conversion r1 piece0 tok (some piece)
      obtain ⟨pre4, k1, k2⟩ := split_past _ _ pre3 post _ h2.2 (by simp [a1, a2])
      obtain ⟨pre1, ms1, r, dr, post1, j0, j1, j2⟩ := ih pre4 post tok piece k2
      refine ⟨[Event.sample sm c tok0, Event.is_eog tok0 false] ++ (y :: ((m1 ++
        Event.callback_test r1 :: (deliver r1 piece0 ++ [Event.decode c [tok0] 0])) ++
        pre1)), ms1, r, dr, post1, j0, ?_, j2⟩
      rw [h1, k1, j1]
      simp

theorem c_str_err_already_generating :
    c_str err_already_generating = err_already_generating := by decide

theorem c_str_err_tokenize : c_str err_tokenize = err_tokenize := by decide

theorem c_str_err_process_prompt : c_str err_process_prompt = err_process_prompt := by
  decide

theorem emit_split (xs : List Event) (s : State E) (err : Text) (pre post : List Event)
    (f : Handle) (text : Text) (hx : Event.callback f text ∉ xs)
    (h : xs ++ emit s err = pre ++ Event.callback f text :: post) :
    pre = xs ++ [Event.callback_test (some f)] ∧ text = c_str err ∧ post = [] := by
  have h' : (xs ++ [Event.callback_test s.g_token_callback]) ++
      deliver s.g_token_callback err = pre ++ Event.callback f text :: post := by
    simpa [emit, List.append_assoc] using h
  obtain ⟨pre2, h1, h2⟩ := split_past _ _ pre post _ h' (by simp [hx])
  obtain ⟨e1, e2, e3, e4⟩ := last_delivery _ err pre2 post f text h2
  rw [h1, e1, e3]
  exact ⟨by simp, e2, e4⟩

theorem emit_no_conversion (s : State E) (err : Text) (tok : Token) (r : Option Text) :
    Event.token_to_piece tok r ∉ emit s err := by
  have := deliver_no_conversion s.g_token_callback err tok r
  simp [emit, this]

theorem deliveries_in_place (eng : Engine E) (sched : List Interleaving) (s : State E)
    (prompt : Text) (max_tokens : Int) (m c sm : Handle) (hm : s.g_model = some m)
    (hc : s.g_ctx = some c) (hsm : s.g_sampler = some sm) (s1 : State E) (evs : List Event)
    (hr : generate_text_streaming eng sched s prompt max_tokens = some (s1, evs)) :
    (∀ (pre post : List Event) (f : Handle) (text : Text),
      evs = pre ++ Event.callback f text :: post →
      (sampled pre = [] ∧ post = [] ∧ (text = err_already_generating ∨
        text = err_tokenize ∨ text = err_process_prompt)) ∨
      InPlace sm c pre f text post) ∧
    (∀ (pre post : List Event) (tok : Token) (piece : Text),
      evs = pre ++ Event.token_to_piece tok (some piece) :: post →
      ∃ pre1 ms r dr post1, AllMarks ms ∧
        pre = pre1 ++ [Event.sample sm c tok, Event.is_eog tok false] ∧
        post = ms ++ Event.callback_test r :: (deliver r piece ++
          Event.decode c [tok] dr :: post1)) := by
  rcases streaming_anatomy (fun _ => True) eng sched s prompt max_tokens m c sm hm hc hsm
      trivial (fun _ _ _ _ => trivial) s1 evs hr with
    h | ⟨r1, n, r2, h⟩ | ⟨r1, n, r2, pt2, r3, _, h⟩ | ⟨r1, n, r2, pt2, lp, h, htr⟩
  · constructor
    · intro pre post f text hs
      have h' : [] ++ emit s err_already_generating = pre ++ Event.callback f text :: post := by
        rw [← hs, h]; rfl
      obtain ⟨e1, e2, e3⟩ := emit_split [] s _ pre post f text (by simp) h'
      refine Or.inl ⟨by rw [e1]; rfl, e3, Or.inl ?_⟩
      rw [e2, c_str_err_already_generating]
    · intro pre post tok piece hs
      rw [h] at hs
      exact absurd hs (no_split _ pre post _ (emit_no_conversion s _ tok (some piece)))
  · constructor
    · intro pre post f text hs
      obtain ⟨e1, e2, e3⟩ := emit_split _ s _ pre post f text (by simp) (h ▸ hs)
      refine Or.inl ⟨by rw [e1]; rfl, e3, Or.inr (Or.inl ?_)⟩
      rw [e2, c_str_err_tokenize]
    · intro pre post tok piece hs
      rw [h] at hs
      have a := emit_no_conversion s err_tokenize tok (some piece)
      exact absurd hs (no_split _ pre post _ (by simp [a]))
  · constructor
    · intro pre post f text hs
      obtain ⟨e1, e2, e3⟩ := emit_split _ s _ pre post f text (by simp) (h ▸ hs)
      refine Or.inl ⟨by rw [e1]; rfl, e3, Or.inr (Or.inr ?_)⟩
      rw [e2, c_str_err_process_prompt]
    · intro pre post tok piece hs
      rw [h] at hs
      have a := emit_no_conversion s err_process_prompt tok (some piece)
      exact absurd hs (no_split _ pre post _ (by simp [a]))
  · constructor
    · intro pre post f text hs
      obtain ⟨pre2, h1, h2⟩ := split_past _ _ pre post _ (h ▸ hs) (by simp)
      rw [h1]
      exact Or.inr (in_place_extend sm c _ pre2 f text post
        (loop_trace_in_place _ sm c lp htr pre2 post f text h2))
    · intro pre post tok piece hs
      obtain ⟨pre2, h1, h2⟩ := split_past _ _ pre post _ (h ▸ hs) (by simp)
      obtain ⟨pre1, ms, r, dr, post1, k0, k1, k2⟩ :=
        loop_trace_after_conversion _ sm c lp htr pre2 post tok piece h2
      exact ⟨_ ++ pre1, ms, r, dr, post1, k0, by rw [h1, k1, List.append_assoc], k2⟩

/-- C7: in the trace of every `generate_text_streaming` call that returns, whatever unlocked
`cancel_generation` and `set_token_callback` calls land during it, every delivery to the
callback is in its place and nothing is held back.  A delivery is either the one error text
of a call that ends before its loop (no token was sampled before it and nothing follows it),
or it sits in the loop as `InPlace` says: the fragment of a token comes right after the
sampling call of that very token, its end-of-generation test, its conversion (whose answer,
as a C string, is the text delivered) and the null test of the callback, and right before
the single-token decode of that same token, hence before any later sampling call; the two
error texts of the loop end the trace.  And every successful conversion of a token, which
comes right after that token's sampling call and test, is followed by the null test of the
callback, by the delivery of the piece to the callback that test read (none when it read
null) and then by the single-token decode of that token. -/
theorem emit_before_decode (eng : Engine E) (sched : List Interleaving) (s : State E)
    (prompt : Text) (max_tokens : Int) (s1 : State E) (evs : List Event)
    (hr : generate_text_streaming eng sched s prompt max_tokens = some (s1, evs)) :
    (∀ (pre post : List Event) (f : Handle) (text : Text),
      evs = pre ++ Event.callback f text :: post →
      (sampled pre = [] ∧ post = [] ∧ (text = err_no_model ∨ text = err_already_generating ∨
        text = err_tokenize ∨ text = err_process_prompt)) ∨
      ∃ c sm, s.g_ctx = some c ∧ s.g_sampler = some sm ∧ InPlace sm c pre f text post) ∧
    (∀ (pre post : List Event) (tok : Token) (piece : Text),
      evs = pre ++ Event.token_to_piece tok (some piece) :: post →
      ∃ c sm, s.g_ctx = some c ∧ s.g_sampler = some sm ∧
        ∃ pre1 ms r dr post1, AllMarks ms ∧
          pre = pre1 ++ [Event.sample sm c tok, Event.is_eog tok false] ∧
          post = ms ++ Event.callback_test r :: (deliver r piece ++
            Event.decode c [tok] dr :: post1)) := by
  cases hl : is_model_loaded s with
  | false =>
    rw [streaming_not_loaded eng sched s prompt max_tokens hl] at hr
    simp only [Option.some.injEq, Prod.mk.injEq] at hr
    have h := hr.2.symm
    constructor
    · intro pre post f text hs
      have h' : [] ++ emit s err_no_model = pre ++ Event.callback f text :: post := by
        rw [← hs, h]; rfl
      obtain ⟨e1, e2, e3⟩ := emit_split [] s _ pre post f text (by simp) h'
      refine Or.inl ⟨by rw [e1]; rfl, e3, Or.inl ?_⟩
      rw [e2, c_str_err_no_model]
    · intro pre post tok piece hs
      rw [h] at hs
      exact absurd hs (no_split _ pre post _ (emit_no_conversion s _ tok (some piece)))
  | true =>
    obtain ⟨m, c, sm, hm, hc, hsm⟩ := loaded_handles s hl
    obtain ⟨k1, k2⟩ := deliveries_in_place eng sched s prompt max_tokens m c sm hm hc hsm
      s1 evs hr
    constructor
    · intro pre post f text hs
      rcases k1 pre post f text hs with ⟨a1, a2, a3⟩ | a
      · exact Or.inl ⟨a1, a2, Or.inr a3⟩
      · exact Or.inr ⟨c, sm, hc, hsm, a⟩
    · intro pre post tok piece hs
      exact ⟨c, sm, hc, hsm, k2 pre post tok piece hs⟩

theorem emit_before_decode_witness :
    generate_text_streaming mock [] mock_loaded [] 1 =
      some ({ mock_loaded with engine := 1 }, mock_opening ++ mock_step 0) ∧
    mock_opening ++ mock_step 0 =
      (mock_opening ++ [Event.sample 3 2 0, Event.is_eog 0 false,
        Event.token_to_piece 0 (some [Char.ofNat 97]), Event.callback_test (some 9)]) ++
        Event.callback 9 [Char.ofNat 97] :: [Event.decode 2 [0] 0] ∧
    ∃ c sm, mock_loaded.g_ctx = some c ∧ mock_loaded.g_sampler = some sm ∧
      InPlace sm c (mock_opening ++ [Event.sample 3 2 0, Event.is_eog 0 false,
        Event.token_to_piece 0 (some [Char.ofNat 97]), Event.callback_test (some 9)]) 9
        [Char.ofNat 97] [Event.decode 2 [0] 0] :=
  ⟨by decide, by decide,
    ((emit_before_decode mock [] mock_loaded [] 1
      { mock_loaded with engine := 1 } (mock_opening ++ mock_step 0) (by decide)).1
      _ _ 9 [Char.ofNat 97] (by decide)).resolve_left (by decide)⟩
/-! ### Blocking generation, cancellation and the loop bound -/

/-- C9, the code at the failing run: the decode of the first generated token fails.
`generate_text_streaming` delivers two fragments from the loaded session, the piece of that
token and the text "\nError: Failed to decode token"; `generate_text`, from the same state
against the same engine, makes the same engine calls, leaves its loop by a bare `break` and
returns the piece alone, so the text it returns is not the concatenation of the fragments. -/
theorem text_omits_decode_error :
    (generate_text_streaming mock_decode_fails [] mock_loaded [] 5).map
        (fun r => (engine_calls r.2, fragments r.2)) =
      some (mock_opening ++ [Event.sample 3 2 0, Event.is_eog 0 false,
        Event.token_to_piece 0 (some [Char.ofNat 97]), Event.decode 2 [0] 1],
        [[Char.ofNat 97], err_decode]) ∧
    (generate_text mock_decode_fails mock_loaded [] 5).map (fun r => (r.2.2, r.1)) =
      some (mock_opening ++ [Event.sample 3 2 0, Event.is_eog 0 false,
        Event.token_to_piece 0 (some [Char.ofNat 97]), Event.decode 2 [0] 1],
        [Char.ofNat 97]) ∧
    [Char.ofNat 97] ≠ ([[Char.ofNat 97], err_decode] : List Text).flatten := by
  decide

/-- C8, the code at the failing run: on a loaded session, `max_tokens = 5`, another thread
calls `cancel_generation()` before the first test of the stop flag.  The loop does not see
it: after the cancel it still begins three iterations and delivers two fragments, and it
only stops because the third sampled token ends the generation. -/
theorem cancel_is_not_observed :
    generate_text_streaming mock cancel_at_start mock_loaded [] 5 =
      some ({ mock_loaded with engine := 3 },
        mock_opening ++ Event.cancel :: (mock_step 0 ++ mock_step 1 ++
          [Event.sample 3 2 2, Event.is_eog 2 true])) ∧
    sampled (mock_step 0 ++ mock_step 1 ++ [Event.sample 3 2 2, Event.is_eog 2 true]) =
      [0, 1, 2] ∧
    fragments (mock_step 0 ++ mock_step 1 ++ [Event.sample 3 2 2, Event.is_eog 2 true]) =
      [[Char.ofNat 97], [Char.ofNat 97]] := by
  decide

/-- C10, the code at the failing input: a prompt of three tokens and `max_tokens = -5`.
The `size_t` bound is 2^64 - 2, so the streaming loop runs: it samples three tokens,
delivers two fragments and submits two decodes after the prefill, until the engine ends the
generation, while `generate_text` makes no iteration and returns the empty text. -/
theorem negative_max_tokens_streams :
    size_t (3 + (-5)) = 18446744073709551614 ∧
    generate_text_streaming mock [] mock_loaded [] (-5) =
      some ({ mock_loaded with engine := 3 },
        mock_opening ++ (mock_step 0 ++ mock_step 1 ++
          [Event.sample 3 2 2, Event.is_eog 2 true])) ∧
    generate_text mock mock_loaded [] (-5) = some ([], mock_loaded, mock_opening) := by
  decide

theorem sampled_marks (acts : List Interference) : sampled (marks acts) = [] :=
  (marks_silent _ (marks_all acts)).1

theorem sampled_emit (s : State E) (text : Text) : sampled (emit s text) = [] := by
  simp only [emit, deliver]
  cases s.g_token_callback <;> rfl

theorem stream_body_sampled (eng : Engine E) (v c sm : Handle) (il : Interleaving)
    (t : State E) : (sampled (stream_body eng v c sm il t).2.2).length = 1 := by
  simp only [stream_body]
  split
  · rfl
  · split
    · simp only [sampled_append, sampled_marks, sampled_emit, List.append_nil]
      rfl
    · split
      · simp only [sampled_append, sampled_marks, sampled_emit, List.append_nil]
        rfl
      · simp only [sampled_append, sampled_marks, sampled_emit, List.append_nil]
        rfl

theorem stream_loop_sampled_le (eng : Engine E) (v c sm : Handle) (bound : Int) (k : Nat) :
    ∀ (sched : List Interleaving) (n_pos nd : Int) (s : State E),
      (sampled (stream_loop eng v c sm bound k sched n_pos nd s).2.2).length ≤ k := by
  induction k with
  | zero => intro sched n_pos nd s; simp [stream_loop, sampled]
  | succ k ih =>
    intro sched n_pos nd s
    rw [stream_loop_succ]
    have hb := stream_body_sampled eng v c sm (sched.headD Interleaving.quiet)
      (interfere s (sched.headD Interleaving.quiet).before_stop_test)
    split_ifs
    · simp [sampled_marks]
    · have := ih sched.tail (i32 (n_pos + 1)) (i32 (nd + 1))
        (stream_body eng v c sm (sched.headD Interleaving.quiet)
          (interfere s (sched.headD Interleaving.quiet).before_stop_test)).2.1
      simp only [sampled_append, List.length_append, sampled_marks, List.length_nil, hb]
      omega
    · simp only [sampled_append, List.length_append, sampled_marks, List.length_nil, hb]
      omega
    · simp [sampled]

/-- Where the loop bound of `generate_text_streaming` does hold: when the `int` sum of the
prompt size and `max_tokens` is not negative and fits 32 bits, a streaming call samples at
most `max(max_tokens, 0)` tokens, for every engine and every schedule of unlocked calls. -/
theorem streaming_samples_bounded (eng : Engine E) (sched : List Interleaving) (s : State E)
    (prompt : Text) (max_tokens : Int) (m : Handle) (hm : s.g_model = some m)
    (hlo : 0 ≤ i32 (-(eng.llama_tokenize s.engine m prompt 0).1.1) + max_tokens)
    (hhi : i32 (-(eng.llama_tokenize s.engine m prompt 0).1.1) + max_tokens < 2147483648)
    (s1 : State E) (evs : List Event)
    (hr : generate_text_streaming eng sched s prompt max_tokens = some (s1, evs)) :
    (sampled evs).length ≤ max_tokens.toNat := by
  cases hl : is_model_loaded s with
  | false =>
    rw [streaming_not_loaded eng sched s prompt max_tokens hl] at hr
    simp only [Option.some.injEq, Prod.mk.injEq] at hr
    rw [← hr.2, sampled_emit]
    simp
  | true =>
    cases hg : s.g_is_generating with
    | true =>
      rw [streaming_busy eng sched s prompt max_tokens hl hg] at hr
      simp only [Option.some.injEq, Prod.mk.injEq] at hr
      rw [← hr.2, sampled_emit]
      simp
    | false =>
      obtain ⟨m1, c, sm, hm1, hc, hsm⟩ := loaded_handles s hl
      have hmm : m1 = m := by rw [hm] at hm1; exact (Option.some.inj hm1).symm
      subst hmm
      rw [generate_text_streaming_loaded eng sched s prompt max_tokens m1 c sm hm hc hsm hg]
        at hr
      have hp := prefill_spec eng m1 c
        { s with g_is_generating := true, g_should_stop := false } prompt
      cases hpre : prefill eng m1 c { s with g_is_generating := true, g_should_stop := false }
        prompt with
      | threw => rw [hpre] at hr; simp at hr
      | tokenize_failed s2 ev2 =>
        rw [hpre] at hr
        simp only [Option.some.injEq, Prod.mk.injEq] at hr
        obtain ⟨_, r1, n, r2, rfl⟩ := hp.2.1 s2 ev2 hpre
        rw [← hr.2, sampled_append, sampled_emit]
        simp [sampled]
      | decode_failed s3 ev3 =>
        rw [hpre] at hr
        simp only [Option.some.injEq, Prod.mk.injEq] at hr
        obtain ⟨_, r1, n, r2, pt, r3, _, rfl⟩ := hp.2.2.1 s3 ev3 hpre
        rw [← hr.2, sampled_append, sampled_emit]
        simp [sampled]
      | ready s3 ev3 np =>
        rw [hpre] at hr
        simp only [Option.some.injEq, Prod.mk.injEq] at hr
        obtain ⟨_, hnp0, hnp1, hnp, r1, n, r2, pt, rfl⟩ := hp.2.2.2 s3 ev3 np hpre
        have hnp2 : np = i32 (-(eng.llama_tokenize s.engine m1 prompt 0).1.1) := hnp
        rw [← hnp2] at hlo hhi
        have hfuel := stream_loop_fuel_measure eng m1 c sm (size_t (np + max_tokens))
          (fun x => (np + max_tokens - x).toNat) (by
            intro x hx hlt
            unfold InRange32 at hx
            unfold size_t at hlt
            show (np + max_tokens - i32 (x + 1)).toNat < (np + max_tokens - x).toNat
            unfold i32
            omega) 4294967296 max_tokens.toNat sched np 0 s3 ⟨by omega, hnp1⟩
          (by show (np + max_tokens - np).toNat ≤ 4294967296; omega)
          (by show (np + max_tokens - np).toNat ≤ max_tokens.toNat; omega)
        rw [hfuel] at hr
        have hle := stream_loop_sampled_le eng m1 c sm (size_t (np + max_tokens))
          max_tokens.toNat sched np 0 s3
        rw [← hr.2, sampled_append]
        simpa [sampled] using hle

theorem interfere_same_but_flag (acts : List Interference) :
    ∀ (s t : State E), SameButFlag s t →
      SameButFlag (interfere s acts)
        (interfere t (acts.filter (fun a => a != Interference.cancel))) := by
  induction acts with
  | nil => intro s t h; exact h
  | cons a rest ih =>
    intro s t h
    cases a with
    | cancel =>
      have : SameButFlag (cancel_generation s) t := h
      exact ih _ _ this
    | set_callback cb =>
      obtain ⟨h1, h2, h3, h4, _, h6⟩ := h
      have : SameButFlag (set_token_callback s cb) (set_token_callback t cb) :=
        ⟨h1, h2, h3, h4, rfl, h6⟩
      exact ih _ _ this

theorem without_cancels_append (a b : List Event) :
    without_cancels (a ++ b) = without_cancels a ++ without_cancels b := by
  simp [without_cancels]

theorem without_cancels_marks (acts : List Interference) :
    without_cancels (marks acts) =
      marks (acts.filter (fun a => a != Interference.cancel)) := by
  induction acts with
  | nil => rfl
  | cons a rest ih =>
    cases a with
    | cancel =>
      have : without_cancels (marks (Interference.cancel :: rest)) =
          without_cancels (marks rest) := rfl
      rw [this, ih]
      rfl
    | set_callback cb =>
      have : without_cancels (marks (Interference.set_callback cb :: rest)) =
          Event.set_callback cb :: without_cancels (marks rest) := rfl
      rw [this, ih]
      rfl

theorem without_cancels_emit (s t : State E) (h : SameButFlag s t) (text : Text) :
    without_cancels (emit s text) = emit t text := by
  simp only [emit, deliver, h.2.2.2.2.1]
  cases t.g_token_callback <;> rfl

theorem stream_body_ignores_cancels (eng : Engine E) (v c sm : Handle) (il : Interleaving)
    (s t : State E) (h : SameButFlag s t) :
    (stream_body eng v c sm il s).1 = (stream_body eng v c sm il.strip t).1 ∧
    SameButFlag (stream_body eng v c sm il s).2.1 (stream_body eng v c sm il.strip t).2.1 ∧
    without_cancels (stream_body eng v c sm il s).2.2 =
      (stream_body eng v c sm il.strip t).2.2 := by
  have he : s.engine = t.engine := h.2.2.2.2.2
  have h1 : SameButFlag { s with engine := (eng.llama_sampler_sample t.engine sm c).2 }
      { t with engine := (eng.llama_sampler_sample t.engine sm c).2 } :=
    ⟨h.1, h.2.1, h.2.2.1, h.2.2.2.1, h.2.2.2.2.1, rfl⟩
  have h2 := interfere_same_but_flag il.before_delivery _ _ h1
  simp only [stream_body, Interleaving.strip, he]
  cases c1 : eng.llama_vocab_is_eog (eng.llama_sampler_sample t.engine sm c).2 v
      (eng.llama_sampler_sample t.engine sm c).1 with
  | true => exact ⟨rfl, h1, rfl⟩
  | false =>
    simp only [Bool.false_eq_true, if_false]
    cases c2 : eng.llama_token_to_piece (eng.llama_sampler_sample t.engine sm c).2 v
        (eng.llama_sampler_sample t.engine sm c).1 with
    | none =>
      refine ⟨rfl, h2, ?_⟩
      simp only [without_cancels_append, without_cancels_marks,
        without_cancels_emit _ _ h2]
      rfl
    | some piece =>
      have h3 : SameButFlag
          { interfere { s with engine := (eng.llama_sampler_sample t.engine sm c).2 }
              il.before_delivery with
            engine := (eng.llama_decode (eng.llama_sampler_sample t.engine sm c).2 c
              [(eng.llama_sampler_sample t.engine sm c).1]).2 }
          { interfere { t with engine := (eng.llama_sampler_sample t.engine sm c).2 }
              (il.before_delivery.filter (fun a => a != Interference.cancel)) with
            engine := (eng.llama_decode (eng.llama_sampler_sample t.engine sm c).2 c
              [(eng.llama_sampler_sample t.engine sm c).1]).2 } :=
        ⟨h2.1, h2.2.1, h2.2.2.1, h2.2.2.2.1, h2.2.2.2.2.1, rfl⟩
      have h4 := interfere_same_but_flag il.before_second_delivery _ _ h3
      by_cases c3 : ((eng.llama_decode (eng.llama_sampler_sample t.engine sm c).2 c
          [(eng.llama_sampler_sample t.engine sm c).1]).1 != 0) = true
      · simp only [c3, if_true]
        refine ⟨trivial, h4, ?_⟩
        simp only [without_cancels_append, without_cancels_marks,
          without_cancels_emit _ _ h2, without_cancels_emit _ _ h4]
        rfl
      · have c4 := Bool.not_eq_true _ ▸ c3
        simp only [c4, Bool.false_eq_true, if_false]
        refine ⟨trivial, h3, ?_⟩
        simp only [without_cancels_append, without_cancels_marks,
          without_cancels_emit _ _ h2]
        rfl

theorem strip_cancels_head (sched : List Interleaving) :
    (strip_cancels sched).headD Interleaving.quiet =
      (sched.headD Interleaving.quiet).strip := by
  cases sched <;> rfl

theorem strip_cancels_tail (sched : List Interleaving) :
    (strip_cancels sched).tail = strip_cancels sched.tail := by
  cases sched <;> rfl

theorem stream_loop_ignores_cancels (eng : Engine E) (v c sm : Handle) (bound : Int)
    (k : Nat) :
    ∀ (sched : List Interleaving) (n_pos nd : Int) (s t : State E), SameButFlag s t →
      SameButFlag (stream_loop eng v c sm bound k sched n_pos nd s).1
        (stream_loop eng v c sm bound k (strip_cancels sched) n_pos nd t).1 ∧
      (stream_loop eng v c sm bound k sched n_pos nd s).2.1 =
        (stream_loop eng v c sm bound k (strip_cancels sched) n_pos nd t).2.1 ∧
      without_cancels (stream_loop eng v c sm bound k sched n_pos nd s).2.2 =
        (stream_loop eng v c sm bound k (strip_cancels sched) n_pos nd t).2.2 := by
  induction k with
  | zero => intro sched n_pos nd s t h; exact ⟨h, rfl, rfl⟩
  | succ k ih =>
    intro sched n_pos nd s t h
    rw [stream_loop_succ, stream_loop_succ]
    simp only [strip_cancels_head, strip_cancels_tail]
    have h0 : SameButFlag (interfere s (sched.headD Interleaving.quiet).before_stop_test)
        (interfere t (sched.headD Interleaving.quiet).strip.before_stop_test) :=
      interfere_same_but_flag _ s t h
    obtain ⟨b1, b2, b3⟩ := stream_body_ignores_cancels eng v c sm
      (sched.headD Interleaving.quiet) _ _ h0
    have m0 : without_cancels (marks (sched.headD Interleaving.quiet).before_stop_test) =
        marks (sched.headD Interleaving.quiet).strip.before_stop_test :=
      without_cancels_marks _
    have hstop := h0.2.2.2.1
    generalize interfere s (sched.headD Interleaving.quiet).before_stop_test = s0
      at h0 b1 b2 b3 hstop
    generalize interfere t (sched.headD Interleaving.quiet).strip.before_stop_test = t0
      at h0 b1 b2 b3 hstop
    rw [hstop, b1]
    by_cases hc : size_t n_pos < bound
    · rw [if_pos hc, if_pos hc]
      by_cases hs : t0.g_should_stop = true
      · rw [if_pos hs, if_pos hs]
        exact ⟨h0, rfl, m0⟩
      · rw [if_neg hs, if_neg hs]
        by_cases hb : (stream_body eng v c sm (sched.headD Interleaving.quiet).strip t0).1 =
            true
        · rw [if_pos hb, if_pos hb]
          obtain ⟨i1, i2, i3⟩ := ih sched.tail (i32 (n_pos + 1)) (i32 (nd + 1)) _ _ b2
          refine ⟨i1, i2, ?_⟩
          simp only [without_cancels_append, m0, b3, i3]
        · rw [if_neg hb, if_neg hb]
          refine ⟨b2, rfl, ?_⟩
          simp only [without_cancels_append, m0, b3]
    · rw [if_neg hc, if_neg hc]
      exact ⟨h, rfl, rfl⟩

theorem same_but_flag_cleared (s t : State E) (h : SameButFlag s t) :
    { s with g_is_generating := false } = { t with g_is_generating := false } := by
  obtain ⟨m, c, sm, g, st, cb, e⟩ := s
  obtain ⟨m2, c2, sm2, g2, st2, cb2, e2⟩ := t
  obtain ⟨h1, h2, h3, h4, h5, h6⟩ := h
  simp only at h1 h2 h3 h4 h5 h6
  subst h1 h2 h3 h4 h5 h6
  rfl

theorem same_but_flag_refl (s : State E) : SameButFlag s s := ⟨rfl, rfl, rfl, rfl, rfl, rfl⟩

/-- No unlocked `cancel_generation()` call changes a streaming call, whatever
`set_token_callback` calls land beside it: the call returns in the same cases, in the same
state, after the same engine calls, the same callback changes and the same deliveries as the
call on which the cancel calls are left out. -/
theorem cancel_never_observed (eng : Engine E) (sched : List Interleaving) (s : State E)
    (prompt : Text) (max_tokens : Int) :
    (generate_text_streaming eng sched s prompt max_tokens).map
        (fun r => (r.1, without_cancels r.2)) =
      generate_text_streaming eng (strip_cancels sched) s prompt max_tokens := by
  cases hl : is_model_loaded s with
  | false =>
    rw [streaming_not_loaded eng sched s prompt max_tokens hl,
      streaming_not_loaded eng (strip_cancels sched) s prompt max_tokens hl]
    simp only [Option.map_some', without_cancels_emit s s (same_but_flag_refl s)]
  | true =>
    cases hg : s.g_is_generating with
    | true =>
      rw [streaming_busy eng sched s prompt max_tokens hl hg,
        streaming_busy eng (strip_cancels sched) s prompt max_tokens hl hg]
      simp only [Option.map_some', without_cancels_emit s s (same_but_flag_refl s)]
    | false =>
      obtain ⟨m, c, sm, hm, hc, hsm⟩ := loaded_handles s hl
      rw [generate_text_streaming_loaded eng sched s prompt max_tokens m c sm hm hc hsm hg,
        generate_text_streaming_loaded eng (strip_cancels sched) s prompt max_tokens m c sm
          hm hc hsm hg]
      have hp := prefill_spec eng m c
        { s with g_is_generating := true, g_should_stop := false } prompt
      cases hpre : prefill eng m c { s with g_is_generating := true, g_should_stop := false }
        prompt with
      | threw => rfl
      | tokenize_failed s2 ev2 =>
        obtain ⟨_, r1, n, r2, rfl⟩ := hp.2.1 s2 ev2 hpre
        simp only [Option.map_some', without_cancels_append,
          without_cancels_emit s2 s2 (same_but_flag_refl s2)]
        rfl
      | decode_failed s3 ev3 =>
        obtain ⟨_, r1, n, r2, pt, r3, _, rfl⟩ := hp.2.2.1 s3 ev3 hpre
        simp only [Option.map_some', without_cancels_append,
          without_cancels_emit s3 s3 (same_but_flag_refl s3)]
        rfl
      | ready s3 ev3 np =>
        obtain ⟨_, _, _, _, r1, n, r2, pt, rfl⟩ := hp.2.2.2 s3 ev3 np hpre
        obtain ⟨h1, _, h3⟩ := stream_loop_ignores_cancels eng m c sm
          (size_t (np + max_tokens)) 4294967296 sched np 0 s3 s3 (same_but_flag_refl s3)
        simp only [Option.map_some', Option.some.injEq, Prod.mk.injEq]
        refine ⟨same_but_flag_cleared _ _ h1, ?_⟩
        rw [without_cancels_append, h3]
        rfl


end Lina
